import Mathlib

/-
Verification of the pattern-match DSL engine (define-and-run):
a shallow embedding of the grammar-driven AST builder (toast), the
chained single-assignment symbol table, the tree-walking evaluator
(run) and the Matching/Join combinatorial engine.

Python's mutable heap is modelled by explicit state passing: scopes are
frames in a store keyed by scope id, a raised exception carries the
state at the point of the raise (mutations are not rolled back), and
the Matching object's mutable current index/row lives in the state,
keyed by matching id.  IEEE-754 floats are modelled as rationals of
their decimal reading; the real-valued transcendental builtins and
Python object identity are outside the embedding (no claim needs them).
-/

namespace Rejig

/-- Identity-carrying value: a fresh tag is minted per pattern
construction site; evaluated records carry (tag, combination index). -/
inductive LitVal where
  | int (n : Int)
  | float (q : Rat)
deriving Repr, DecidableEq

/-- The AST of the language, one constructor per Python AST class.
Every node carries the optional source line inferred at construction
(AST.__init__ takes the first line found among the children, in field
order).  A Matching object is represented by its id (index into the
candidate table built by toast); Placeholder appears as an expression
exactly where Python stores a Matching.Placeholder in
Assignment.expression. -/
inductive AST where
  | Module (statements : List AST) (line : Option Nat)
  | Assignment (symbol : String) (operator : String) (expression : AST) (line : Option Nat)
  | Pattern (assignments : List AST) (matching : Option Nat) (tag : Nat) (line : Option Nat)
  | Join (expression : AST) (matching : Nat) (line : Option Nat)
  | Function (parameters : List String) (body : AST) (line : Option Nat)
  | Block (statements : List AST) (expression : AST) (line : Option Nat)
  | Call (function : AST) (arguments : List AST) (line : Option Nat)
  | Subscript (object : AST) (index : AST) (line : Option Nat)
  | Attribute (object : AST) (field : String) (line : Option Nat)
  | Slice (start : Option AST) (stop : Option AST) (line : Option Nat)
  | Symbol (symbol : String) (line : Option Nat)
  | Literal (value : LitVal) (line : Option Nat)
  | Placeholder (matching : Nat) (slot : Nat)
deriving Repr

/-- Runtime values.  A closure records parameters, body and the
Function node's line only: in the source, the inner
`def function(arguments, symbols)` shadows the `symbols` over which the
closure was formed, so the captured defining scope is never consulted
at call time (the body runs chained to the caller's scope). -/
inductive Value where
  | none
  | bool (b : Bool)
  | int (n : Int)
  | float (q : Rat)
  | str (s : String)
  | list (elems : List Value)
  | slice (start : Option Value) (stop : Option Value)
  | record (tag : Nat) (idx : Option Nat) (fields : List (String × Value))
  | closure (parameters : List String) (body : AST) (line : Option Nat)
  | builtin (name : String)
deriving Repr

/-- Python exception: class name, message, and the implicitly chained
exception active when the raise happened (PEP 3134 context). -/
inductive Error where
  | mk (kind : String) (msg : String) (cause : Option Error)
deriving Repr

def Error.kind : Error → String
  | .mk k _ _ => k

def Error.msg : Error → String
  | .mk _ m _ => m

def Error.cause : Error → Option Error
  | .mk _ _ c => c

/-- A SymbolTable level: parent pointer plus insertion-ordered dict. -/
structure Frame where
  parent : Option Nat
  symbols : List (String × Value)
deriving Repr

/-- The mutable heap: scope frames, the allocator for fresh scope ids,
and each Matching object's current (index, row) once its run started. -/
structure St where
  store : List (Nat × Frame)
  nextScope : Nat
  matchings : List (Nat × (Nat × List Value))
deriving Repr

def assocFind {α : Type} : List (Nat × α) → Nat → Option α
  | [], _ => Option.none
  | (k, v) :: rest, key => if k = key then some v else assocFind rest key

def dictFind {α : Type} : List (String × α) → String → Option α
  | [], _ => Option.none
  | (k, v) :: rest, key => if k = key then some v else dictFind rest key

def pyRepr (s : String) : String := "'" ++ s ++ "'"

def pyStr : Option Nat → String
  | Option.none => "None"
  | some n => toString n

def modelErr : Error := .mk "ModelError" "outside the embedding" Option.none

def fuelErr : Error := .mk "ModelFuel" "fuel exhausted" Option.none

/-- SymbolTable.__setitem__: duplicate binding in the same scope raises
TypeError before any mutation happens. -/
def redefErr (s : String) : Error :=
  .mk "TypeError" ("symbol " ++ pyRepr s ++ " has multiple definitions at this scope") Option.none

def St.findFrame (st : St) (sid : Nat) : Option Frame := assocFind st.store sid

def setFrame (store : List (Nat × Frame)) (sid : Nat) (f : Frame) : List (Nat × Frame) :=
  store.map (fun p => if p.1 = sid then (sid, f) else p)

def setitem (st : St) (sid : Nat) (n : String) (v : Value) : Except Error St :=
  match st.findFrame sid with
  | Option.none => .error modelErr
  | some f =>
    if (dictFind f.symbols n).isSome then .error (redefErr n)
    else .ok { st with store := setFrame st.store sid { f with symbols := f.symbols ++ [(n, v)] } }

/-- SymbolTable.__getitem__: local dict first, then the parent chain;
KeyError at the root.  The chain is finite in every reachable store
(parents are older frames), so fuel sid+1 always suffices. -/
def lookupSym : Nat → St → Nat → String → Except Error Value
  | 0, _, _, _ => .error modelErr
  | fuel + 1, st, sid, n =>
    match st.findFrame sid with
    | Option.none => .error modelErr
    | some f =>
      match dictFind f.symbols n with
      | some v => .ok v
      | Option.none =>
        match f.parent with
        | some p => lookupSym fuel st p n
        | Option.none => .error (.mk "KeyError" (pyRepr n) Option.none)

def getitem (st : St) (sid : Nat) (n : String) : Except Error Value :=
  lookupSym (sid + 1) st sid n

def St.matchState (st : St) (mid : Nat) : Option (Nat × List Value) :=
  assocFind st.matchings mid

def assocSet {α : Type} (l : List (Nat × α)) (k : Nat) (v : α) : List (Nat × α) :=
  if (assocFind l k).isSome then l.map (fun p => if p.1 = k then (k, v) else p)
  else (k, v) :: l

def setMatching (st : St) (mid : Nat) (i : Nat) (row : List Value) : St :=
  { st with matchings := assocSet st.matchings mid (i, row) }

def newFrame (st : St) (parent : Option Nat) (syms : List (String × Value)) : Nat × St :=
  (st.nextScope,
   { st with store := (st.nextScope, ⟨parent, syms⟩) :: st.store,
             nextScope := st.nextScope + 1 })

/-- Python truthiness for the modelled value kinds. -/
def truthy : Value → Bool
  | .none => false
  | .bool b => b
  | .int n => n != 0
  | .float q => q != 0
  | .str s => s != ""
  | .list xs => !xs.isEmpty
  | .slice _ _ => true
  | .record _ _ _ => true
  | .closure _ _ _ => true
  | .builtin _ => true

def typeName : Value → String
  | .none => "NoneType"
  | .bool _ => "bool"
  | .int _ => "int"
  | .float _ => "float"
  | .str _ => "str"
  | .list _ => "list"
  | .slice _ _ => "slice"
  | .record _ _ _ => "obj"
  | .closure _ _ _ => "function"
  | .builtin _ => "function"

/-- Exception wrapping performed by the Call, Subscript, Attribute and
Symbol branches of run: re-raise as RuntimeError annotated with the
node's line, the original class name and message; the original is the
implicitly chained context. -/
def wrap (line : Option Nat) (e : Error) : Error :=
  .mk "RuntimeError"
      ("on line " ++ (match line with | Option.none => "???" | some n => toString n) ++
       ", encountered " ++ e.kind ++ ": " ++ e.msg)
      (some e)

abbrev RRes := Except Error Value × St

def wrapRes (line : Option Nat) (r : RRes) : RRes :=
  match r with
  | (.error e, st) => (.error (wrap line e), st)
  | (.ok v, st) => (.ok v, st)

def litVal : LitVal → Value
  | .int n => .int n
  | .float q => .float q

def asIntLike : Value → Option Int
  | .int n => some n
  | .bool b => some (if b then 1 else 0)
  | _ => Option.none

def asRatLike : Value → Option Rat
  | .int n => some (n : Rat)
  | .float q => some q
  | .bool b => some (if b then 1 else 0)
  | _ => Option.none

def binTypeErr (op : String) (a b : Value) : Error :=
  .mk "TypeError"
      ("unsupported operand type(s) for " ++ op ++ ": " ++ pyRepr (typeName a) ++
       " and " ++ pyRepr (typeName b)) Option.none

def repList {α : Type} (l : List α) (n : Int) : List α :=
  (List.replicate n.toNat l).flatten

def repStr (s : String) (n : Int) : String :=
  String.join (List.replicate n.toNat s)

def addV (a b : Value) : Except Error Value :=
  match asIntLike a, asIntLike b with
  | some x, some y => .ok (.int (x + y))
  | _, _ =>
    match asRatLike a, asRatLike b with
    | some x, some y => .ok (.float (x + y))
    | _, _ =>
      match a, b with
      | .str x, .str y => .ok (.str (x ++ y))
      | .list x, .list y => .ok (.list (x ++ y))
      | _, _ => .error (binTypeErr "+" a b)

def subV (a b : Value) : Except Error Value :=
  match asIntLike a, asIntLike b with
  | some x, some y => .ok (.int (x - y))
  | _, _ =>
    match asRatLike a, asRatLike b with
    | some x, some y => .ok (.float (x - y))
    | _, _ => .error (binTypeErr "-" a b)

def mulV (a b : Value) : Except Error Value :=
  match asIntLike a, asIntLike b with
  | some x, some y => .ok (.int (x * y))
  | _, _ =>
    match asRatLike a, asRatLike b with
    | some x, some y => .ok (.float (x * y))
    | _, _ =>
      match a, b with
      | .str s, v => match asIntLike v with
        | some n => .ok (.str (repStr s n))
        | Option.none => .error (binTypeErr "*" a b)
      | v, .str s => match asIntLike v with
        | some n => .ok (.str (repStr s n))
        | Option.none => .error (binTypeErr "*" a b)
      | .list l, v => match asIntLike v with
        | some n => .ok (.list (repList l n))
        | Option.none => .error (binTypeErr "*" a b)
      | v, .list l => match asIntLike v with
        | some n => .ok (.list (repList l n))
        | Option.none => .error (binTypeErr "*" a b)
      | _, _ => .error (binTypeErr "*" a b)

/-- Division converts both operands with float() first, so the result
is always a float; zero divisor raises ZeroDivisionError. -/
def divV (a b : Value) : Except Error Value :=
  match asRatLike a, asRatLike b with
  | some x, some y =>
    if y = 0 then .error (.mk "ZeroDivisionError" "float division by zero" Option.none)
    else .ok (.float (x / y))
  | _, _ =>
    .error (.mk "TypeError" "float() argument must be a number" Option.none)

def powV (a b : Value) : Except Error Value :=
  match asIntLike a, asIntLike b with
  | some x, some y =>
    if 0 ≤ y then .ok (.int (x ^ y.toNat))
    else if x = 0 then .error (.mk "ZeroDivisionError" "0.0 cannot be raised to a negative power" Option.none)
    else .ok (.float ((x : Rat) ^ y))
  | _, _ =>
    match asRatLike a, asIntLike b with
    | some x, some y =>
      if x = 0 ∧ y < 0 then .error (.mk "ZeroDivisionError" "0.0 cannot be raised to a negative power" Option.none)
      else .ok (.float (x ^ y))
    | _, _ => .error (.mk "Unmodeled" "non-integer exponent" Option.none)

def posV (a : Value) : Except Error Value :=
  match asIntLike a with
  | some x => .ok (.int x)
  | Option.none =>
    match a with
    | .float q => .ok (.float q)
    | _ => .error (.mk "TypeError" ("bad operand type for unary +: " ++ pyRepr (typeName a)) Option.none)

def negV (a : Value) : Except Error Value :=
  match asIntLike a with
  | some x => .ok (.int (-x))
  | Option.none =>
    match a with
    | .float q => .ok (.float (-q))
    | _ => .error (.mk "TypeError" ("bad operand type for unary -: " ++ pyRepr (typeName a)) Option.none)

mutual

/-- Python == on the modelled kinds: numeric kinds compare by value,
sequences elementwise, records by identity components and fields
(object identity itself is outside the embedding). -/
def valueEqB (a b : Value) : Bool :=
  match asRatLike a, asRatLike b with
  | some x, some y => x == y
  | _, _ =>
    match a, b with
    | .none, .none => true
    | .str x, .str y => x == y
    | .list xs, .list ys => listEqB xs ys
    | .slice a1 a2, .slice b1 b2 => optEqB a1 b1 && optEqB a2 b2
    | .record t i fs, .record t' i' fs' => t == t' && i == i' && fieldsEqB fs fs'
    | .builtin x, .builtin y => x == y
    | _, _ => false

def listEqB (xs ys : List Value) : Bool :=
  match xs, ys with
  | [], [] => true
  | x :: xs', y :: ys' => valueEqB x y && listEqB xs' ys'
  | _, _ => false

def optEqB (x y : Option Value) : Bool :=
  match x, y with
  | Option.none, Option.none => true
  | some a, some b => valueEqB a b
  | _, _ => false

def fieldsEqB (xs ys : List (String × Value)) : Bool :=
  match xs, ys with
  | [], [] => true
  | (n, x) :: xs', (m, y) :: ys' => n == m && valueEqB x y && fieldsEqB xs' ys'
  | _, _ => false

end

def cmpErr (op : String) (a b : Value) : Error :=
  .mk "TypeError"
      (pyRepr op ++ " not supported between instances of " ++ pyRepr (typeName a) ++
       " and " ++ pyRepr (typeName b)) Option.none

def ltB (a b : Value) : Except Error Bool :=
  match asRatLike a, asRatLike b with
  | some x, some y => .ok (decide (x < y))
  | _, _ =>
    match a, b with
    | .str x, .str y => .ok (decide (x < y))
    | _, _ => .error (cmpErr "<" a b)

def leB (a b : Value) : Except Error Bool :=
  match asRatLike a, asRatLike b with
  | some x, some y => .ok (decide (x ≤ y))
  | _, _ =>
    match a, b with
    | .str x, .str y => .ok (decide (x ≤ y))
    | _, _ => .error (cmpErr "<=" a b)

def iterate (v : Value) : Except Error (List Value) :=
  match v with
  | .list xs => .ok xs
  | .str s => .ok (s.toList.map (fun c => .str c.toString))
  | _ => .error (.mk "TypeError" ("argument of type " ++ pyRepr (typeName v) ++ " is not iterable") Option.none)

def iterAll : List Value → Except Error (List (List Value))
  | [] => .ok []
  | v :: vs =>
    match iterate v with
    | .error e => .error e
    | .ok l =>
      match iterAll vs with
      | .error e => .error e
      | .ok ls => .ok (l :: ls)

def listIndex (xs : List Value) (i : Int) : Except Error Value :=
  let j : Int := if i < 0 then i + xs.length else i
  if 0 ≤ j ∧ j < (xs.length : Int) then .ok (xs.getD j.toNat .none)
  else .error (.mk "IndexError" "list index out of range" Option.none)

def sliceBound (len : Nat) (dflt : Int) : Option Value → Except Error Int
  | Option.none => .ok dflt
  | some v =>
    match asIntLike v with
    | some i => .ok (if i < 0 then max 0 (i + len) else min i len)
    | Option.none =>
      .error (.mk "TypeError" "slice indices must be integers or None" Option.none)

def sliceTake {α : Type} (l : List α) (a b : Int) : List α :=
  ((l.drop a.toNat).take (b - a).toNat)

def getItemV (v idx : Value) : Except Error Value :=
  match v with
  | .list xs =>
    match asIntLike idx with
    | some i => listIndex xs i
    | Option.none =>
      match idx with
      | .slice s e =>
        match sliceBound xs.length 0 s with
        | .error er => .error er
        | .ok a =>
          match sliceBound xs.length xs.length e with
          | .error er => .error er
          | .ok b => .ok (.list (sliceTake xs a b))
      | _ => .error (.mk "TypeError" ("list indices must be integers or slices, not " ++ typeName idx) Option.none)
  | .str s =>
    match asIntLike idx with
    | some i =>
      let cs := s.toList.map (fun c => Value.str c.toString)
      match listIndex cs i with
      | .ok c => .ok c
      | .error _ => .error (.mk "IndexError" "string index out of range" Option.none)
    | Option.none => .error (.mk "TypeError" "string indices must be integers" Option.none)
  | .record _ _ fs =>
    match idx with
    | .str n =>
      match dictFind fs n with
      | some x => .ok x
      | Option.none => .error (.mk "KeyError" (pyRepr n) Option.none)
    | .int i => .error (.mk "KeyError" (toString i) Option.none)
    | _ => .error (.mk "KeyError" (typeName idx) Option.none)
  | _ => .error (.mk "TypeError" (pyRepr (typeName v) ++ " object is not subscriptable") Option.none)

def getattrV (v : Value) (n : String) : Except Error Value :=
  match v with
  | .record _ _ fs =>
    match dictFind fs n with
    | some x => .ok x
    | Option.none =>
      .error (.mk "AttributeError" (pyRepr "obj" ++ " object has no attribute " ++ pyRepr n) Option.none)
  | _ =>
    .error (.mk "AttributeError" (pyRepr (typeName v) ++ " object has no attribute " ++ pyRepr n) Option.none)

def flatMapL {α β : Type} (f : α → List β) : List α → List β
  | [] => []
  | x :: xs => f x ++ flatMapL f xs

/-- itertools.product in row-major order: the first collection varies
slowest, the last varies fastest. -/
def product : List (List Value) → List (List Value)
  | [] => [[]]
  | l :: ls => flatMapL (fun x => (product ls).map (fun r => x :: r)) l

/-- Module/Pattern/Block statement sequence: evaluate in order for the
side effect of binding; a raise propagates with the state it left. -/
def runStmts (F : AST → Nat → St → RRes) (sc : Nat) : List AST → St → RRes
  | [], st => (.ok .none, st)
  | x :: xs, st =>
    match F x sc st with
    | (.error e, st1) => (.error e, st1)
    | (.ok _, st1) => runStmts F sc xs st1

/-- Evaluate a list of expressions left to right, collecting values. -/
def runExprs (F : AST → Nat → St → RRes) (sc : Nat) :
    List AST → St → (Except Error (List Value)) × St
  | [], st => (.ok [], st)
  | x :: xs, st =>
    match F x sc st with
    | (.error e, st1) => (.error e, st1)
    | (.ok v, st1) =>
      match runExprs F sc xs st1 with
      | (.error e, st2) => (.error e, st2)
      | (.ok vs, st2) => (.ok (v :: vs), st2)

/-- The enumeration loop of Matching.run: for each combination set the
Matching's current (index, row) and evaluate the body. -/
def runRows (F : AST → Nat → St → RRes) (mid : Nat) (body : AST) (sc : Nat) :
    List (List Value) → Nat → St → (Except Error (List Value)) × St
  | [], _, st => (.ok [], st)
  | row :: rest, i, st =>
    match F body sc (setMatching st mid i row) with
    | (.error e, st1) => (.error e, st1)
    | (.ok v, st1) =>
      match runRows F mid body sc rest (i + 1) st1 with
      | (.error e, st2) => (.error e, st2)
      | (.ok vs, st2) => (.ok (v :: vs), st2)

/-- The part of Matching.run after the single evaluation of the
candidate expressions: it receives only their values. -/
def joinAfter (F : AST → Nat → St → RRes) (mid : Nat) (body : AST) (sc : Nat)
    (colls : List Value) (st : St) : RRes :=
  match iterAll colls with
  | .error e => (.error e, st)
  | .ok lists =>
    match runRows F mid body sc (product lists) 0 st with
    | (.error e, st1) => (.error e, st1)
    | (.ok vs, st1) => (.ok (.list vs), st1)

/-- Matching.run: evaluate every registered candidate expression once,
in the given scope, then enumerate the Cartesian product. -/
def joinRun (F : AST → Nat → St → RRes) (cands : List AST) (mid : Nat) (body : AST)
    (sc : Nat) (st : St) : RRes :=
  match runExprs F sc cands st with
  | (.error e, st1) => (.error e, st1)
  | (.ok colls, st1) => joinAfter F mid body sc colls st1

/-- The identity index of a Pattern evaluation: the active Matching's
current index, if the Pattern has one; reading it before any run of
that Matching raises AttributeError like the source would. -/
def patIdx (st : St) (m : Option Nat) : Except Error (Option Nat) :=
  match m with
  | Option.none => .ok Option.none
  | some mid =>
    match st.matchState mid with
    | some (i, _) => .ok (some i)
    | Option.none => .error (.mk "AttributeError" "'Matching' object has no attribute 'i'" Option.none)

def dictInsert (l : List (String × Value)) (k : String) (v : Value) : List (String × Value) :=
  if (dictFind l k).isSome then l.map (fun p => if p.1 = k then (k, v) else p)
  else l ++ [(k, v)]

/-- The plain dict filled by the parameter loop of a function call
(plain dict assignment: a duplicate parameter name overwrites). -/
def dictBind : List (String × Value) → List String → List Value → List (String × Value)
  | acc, p :: ps, v :: vs => dictBind (dictInsert acc p v) ps vs
  | acc, _, _ => acc

def argGet (args : List AST) (i : Nat) : Except Error AST :=
  match args.get? i with
  | some a => .ok a
  | Option.none => .error (.mk "IndexError" "list index out of range" Option.none)

/-- Evaluate the i-th (unevaluated) argument node and continue. -/
def ev (F : AST → Nat → St → RRes) (sc : Nat) (st : St) (args : List AST) (i : Nat)
    (k : Value → St → RRes) : RRes :=
  match argGet args i with
  | .error e => (.error e, st)
  | .ok a =>
    match F a sc st with
    | (.error e, st1) => (.error e, st1)
    | (.ok v, st1) => k v st1

def ev2 (F : AST → Nat → St → RRes) (sc : Nat) (st : St) (args : List AST)
    (k : Value → Value → St → RRes) : RRes :=
  ev F sc st args 0 (fun a st1 => ev F sc st1 args 1 (fun b st2 => k a b st2))

def lenV (v : Value) : Except Error Value :=
  match v with
  | .list xs => .ok (.int xs.length)
  | .str s => .ok (.int s.length)
  | _ => .error (.mk "TypeError" ("object of type " ++ pyRepr (typeName v) ++ " has no len()") Option.none)

def absV (v : Value) : Except Error Value :=
  match asIntLike v with
  | some x => .ok (.int (|x|))
  | Option.none =>
    match v with
    | .float q => .ok (.float (|q|))
    | _ => .error (.mk "TypeError" ("bad operand type for abs(): " ++ pyRepr (typeName v)) Option.none)

def liftE (r : Except Error Value) (st : St) : RRes := (r, st)

/-- The union builtin: sum((run(x) for x in arguments), []). -/
def unionGo (F : AST → Nat → St → RRes) (sc : Nat) :
    List AST → List Value → St → RRes
  | [], acc, st => (.ok (.list acc), st)
  | a :: rest, acc, st =>
    match F a sc st with
    | (.error e, st1) => (.error e, st1)
    | (.ok v, st1) =>
      match v with
      | .list xs => unionGo F sc rest (acc ++ xs) st1
      | _ => (.error (.mk "TypeError" ("can only concatenate list (not " ++ pyRepr (typeName v) ++ ") to list") Option.none), st1)

/-- Dispatch labels for the builtins table. -/
inductive BKind where
  | bLen | bAbs | bAnd | bOr | bNot | bEq | bNe | bGt | bGe | bLt | bLe
  | bAdd | bSub | bMul | bDiv | bPow | bTrans | bUnion | bUnknown
deriving Repr, DecidableEq

def bKind : String → BKind
  | "len" => .bLen
  | "abs" => .bAbs
  | "and" => .bAnd
  | "or" => .bOr
  | "not" => .bNot
  | "==" => .bEq
  | "!=" => .bNe
  | ">" => .bGt
  | ">=" => .bGe
  | "<" => .bLt
  | "<=" => .bLe
  | "+" => .bAdd
  | "-" => .bSub
  | "*" => .bMul
  | "/" => .bDiv
  | "**" => .bPow
  | "sqrt" | "exp" | "sin" | "cos" | "tan" | "sinh" | "cosh" | "tanh" => .bTrans
  | "union" => .bUnion
  | _ => .bUnknown

/-- The builtins table: each entry receives the unevaluated argument
nodes and the caller's scope.  The boolean operators are
short-circuiting: the second operand node is only evaluated when the
first did not decide the result. -/
def applyBuiltin (F : AST → Nat → St → RRes) (name : String) (args : List AST)
    (sc : Nat) (st : St) : RRes :=
  match bKind name with
  | .bLen => ev F sc st args 0 (fun v st1 => liftE (lenV v) st1)
  | .bAbs => ev F sc st args 0 (fun v st1 => liftE (absV v) st1)
  | .bAnd =>
    ev F sc st args 0 (fun v0 st1 =>
      if truthy v0 then ev F sc st1 args 1 (fun v1 st2 => (.ok v1, st2))
      else (.ok v0, st1))
  | .bOr =>
    ev F sc st args 0 (fun v0 st1 =>
      if truthy v0 then (.ok v0, st1)
      else ev F sc st1 args 1 (fun v1 st2 => (.ok v1, st2)))
  | .bNot => ev F sc st args 0 (fun v st1 => (.ok (.bool (!truthy v)), st1))
  | .bEq => ev2 F sc st args (fun a b st2 => (.ok (.bool (valueEqB a b)), st2))
  | .bNe => ev2 F sc st args (fun a b st2 => (.ok (.bool (!valueEqB a b)), st2))
  | .bGt => ev2 F sc st args (fun a b st2 => liftE ((ltB b a).map Value.bool) st2)
  | .bGe => ev2 F sc st args (fun a b st2 => liftE ((leB b a).map Value.bool) st2)
  | .bLt => ev2 F sc st args (fun a b st2 => liftE ((ltB a b).map Value.bool) st2)
  | .bLe => ev2 F sc st args (fun a b st2 => liftE ((leB a b).map Value.bool) st2)
  | .bAdd =>
    if args.length = 1 then ev F sc st args 0 (fun v st1 => liftE (posV v) st1)
    else ev2 F sc st args (fun a b st2 => liftE (addV a b) st2)
  | .bSub =>
    if args.length = 1 then ev F sc st args 0 (fun v st1 => liftE (negV v) st1)
    else ev2 F sc st args (fun a b st2 => liftE (subV a b) st2)
  | .bMul => ev2 F sc st args (fun a b st2 => liftE (mulV a b) st2)
  | .bDiv => ev2 F sc st args (fun a b st2 => liftE (divV a b) st2)
  | .bPow => ev2 F sc st args (fun a b st2 => liftE (powV a b) st2)
  | .bTrans =>
    ev F sc st args 0 (fun _ st1 =>
      (.error (.mk "Unmodeled" ("transcendental builtin " ++ name) Option.none), st1))
  | .bUnion => unionGo F sc args [] st
  | .bUnknown => (.error modelErr, st)

/-- Call evaluation: look up the callee, then hand it the unevaluated
argument nodes together with the caller's scope.  For a closure: arity
check against the defining line, evaluate each argument in the
caller's scope, and evaluate the body in a fresh frame whose parent is
the caller's scope (the source's inner function shadows the defining
`symbols` with its parameter, so the defining scope is not used). -/
def callCore (F : AST → Nat → St → RRes) (f : AST) (args : List AST) (sc : Nat) (st : St) : RRes :=
  match F f sc st with
  | (.error e, st1) => (.error e, st1)
  | (.ok fv, st1) =>
    match fv with
    | .closure ps body defLine =>
      if ps.length ≠ args.length then
        (.error (.mk "TypeError"
          ("on line " ++ pyStr defLine ++ ", function expects " ++ toString ps.length ++
           " arguments, got " ++ toString args.length) Option.none), st1)
      else
        match runExprs F sc args st1 with
        | (.error e, st2) => (.error e, st2)
        | (.ok vals, st2) =>
          match newFrame st2 (some sc) (dictBind [] ps vals) with
          | (fid, st3) => F body fid st3
    | .builtin n => applyBuiltin F n args sc st1
    | v => (.error (.mk "TypeError" (pyRepr (typeName v) ++ " object is not callable") Option.none), st1)

def subsCore (F : AST → Nat → St → RRes) (o ix : AST) (sc : Nat) (st : St) : RRes :=
  match F o sc st with
  | (.error e, st1) => (.error e, st1)
  | (.ok v, st1) =>
    match F ix sc st1 with
    | (.error e, st2) => (.error e, st2)
    | (.ok i, st2) => liftE (getItemV v i) st2

def attrCore (F : AST → Nat → St → RRes) (o : AST) (fld : String) (sc : Nat) (st : St) : RRes :=
  match F o sc st with
  | (.error e, st1) => (.error e, st1)
  | (.ok v, st1) => liftE (getattrV v fld) st1

def sliceCore2 (F : AST → Nat → St → RRes) (e : Option AST) (sv : Option Value)
    (sc : Nat) (st : St) : RRes :=
  match e with
  | Option.none => (.ok (.slice sv Option.none), st)
  | some b =>
    match F b sc st with
    | (.error er, st1) => (.error er, st1)
    | (.ok v, st1) => (.ok (.slice sv (some v)), st1)

def sliceCore (F : AST → Nat → St → RRes) (s e : Option AST) (sc : Nat) (st : St) : RRes :=
  match s with
  | Option.none => sliceCore2 F e Option.none sc st
  | some a =>
    match F a sc st with
    | (.error er, st1) => (.error er, st1)
    | (.ok v, st1) => sliceCore2 F e (some v) sc st1

/-- The isinstance(node.expression, Matching.Placeholder) test of the
Assignment branch. -/
def isPlaceholder : AST → Option (Nat × Nat)
  | .Placeholder mid slot => some (mid, slot)
  | _ => Option.none

/-- One dispatch step of run, parameterized by the recursive call.
Branch order and content mirror the isinstance chain of the source. -/
def runStep (mt : List (List AST)) (F : AST → Nat → St → RRes) :
    AST → Nat → St → RRes
  | .Module stmts _, sc, st => runStmts F sc stmts st
  | .Assignment s _op e _, sc, st =>
    match isPlaceholder e with
    | some (mid, slot) =>
      match st.matchState mid with
      | Option.none =>
        (.error (.mk "AttributeError" "'Matching' object has no attribute 'row'" Option.none), st)
      | some (_, row) =>
        match row.get? slot with
        | Option.none => (.error (.mk "IndexError" "tuple index out of range" Option.none), st)
        | some v =>
          match setitem st sc s v with
          | .error er => (.error er, st)
          | .ok st1 => (.ok .none, st1)
    | Option.none =>
      match F e sc st with
      | (.error er, st1) => (.error er, st1)
      | (.ok v, st1) =>
        match setitem st1 sc s v with
        | .error er => (.error er, st1)
        | .ok st2 => (.ok .none, st2)
  | .Pattern asgns m tag _, sc, st =>
    match patIdx st m with
    | .error er => (.error er, st)
    | .ok idx =>
      match newFrame st (some sc) [] with
      | (fid, st1) =>
        match runStmts F fid asgns st1 with
        | (.error er, st2) => (.error er, st2)
        | (.ok _, st2) =>
          match st2.findFrame fid with
          | Option.none => (.error modelErr, st2)
          | some f => (.ok (.record tag idx f.symbols), st2)
  | .Join e mid _, sc, st => joinRun F (mt.getD mid []) mid e sc st
  | .Function ps body line, _, st => (.ok (.closure ps body line), st)
  | .Block stmts e _, sc, st =>
    match newFrame st (some sc) [] with
    | (fid, st1) =>
      match runStmts F fid stmts st1 with
      | (.error er, st2) => (.error er, st2)
      | (.ok _, st2) => F e fid st2
  | .Call f args line, sc, st => wrapRes line (callCore F f args sc st)
  | .Subscript o ix line, sc, st => wrapRes line (subsCore F o ix sc st)
  | .Attribute o fld line, sc, st => wrapRes line (attrCore F o fld sc st)
  | .Slice s e _, sc, st => sliceCore F s e sc st
  | .Symbol n line, sc, st => wrapRes line (getitem st sc n, st)
  | .Literal lv _, _, st => (.ok (litVal lv), st)
  | .Placeholder _ _, _, st => (.error (.mk "AssertionError" "Placeholder" Option.none), st)

/-- The evaluator, with fuel for the non-structural recursion through
closures; run mt (fuel+1) unfolds to runStep mt (run mt fuel). -/
def run (mt : List (List AST)) : Nat → AST → Nat → St → RRes
  | 0 => fun _ _ st => (.error fuelErr, st)
  | fuel + 1 => runStep mt (run mt fuel)

theorem run_succ (mt : List (List AST)) (fuel : Nat) :
    run mt (fuel + 1) = runStep mt (run mt fuel) := rfl

/-- The builtins symbol table at scope id 0. -/
def builtinNames : List String :=
  ["len", "abs", "and", "or", "not", "==", "!=", ">", ">=", "<", "<=",
   "+", "-", "*", "/", "**", "sqrt", "exp", "sin", "cos", "tan", "sinh",
   "cosh", "tanh", "union"]

def builtinsFrame : Frame :=
  ⟨Option.none, builtinNames.map (fun n => (n, Value.builtin n))⟩

/-- Initial state for evaluating a Module: builtins at scope 0 and a
caller-supplied scope 1 chained to it. -/
def initSt (user : List (String × Value)) : St :=
  ⟨[(1, ⟨some 0, user⟩), (0, builtinsFrame)], 2, []⟩

/-- A lark parse tree: rule nodes with a kind label and children, and
terminal tokens carrying their text and source line. -/
inductive PTree where
  | node (data : String) (children : List PTree)
  | token (text : String) (line : Option Nat)
deriving Repr

/-- AST-construction state: the candidate table (one append-only list
of registered candidate expressions per Matching, keyed by creation
order) and the allocator for the fresh per-pattern-site identity tag
(Pattern.__init__ mints a fresh class object per call). -/
structure BState where
  cands : List (List AST)
  nextTag : Nat
deriving Repr

/-- What a toast call can return: an AST, a parameter-name list
(paramlist) or an argument list (arglist). -/
inductive TRes where
  | ast (a : AST)
  | names (ns : List String)
  | astList (xs : List AST)
deriving Repr

def TRes.asAST : TRes → Except Error AST
  | .ast a => .ok a
  | _ => .error modelErr

def TRes.asNames : TRes → Except Error (List String)
  | .names ns => .ok ns
  | _ => .error modelErr

def TRes.asList : TRes → Except Error (List AST)
  | .astList xs => .ok xs
  | _ => .error modelErr

def isToken : PTree → Bool
  | .token _ _ => true
  | .node _ _ => false

def strOf : PTree → String
  | .token t _ => t
  | .node d _ => d

def tokLine : PTree → Option Nat
  | .token _ l => l
  | .node _ _ => Option.none

def lineOf : AST → Option Nat
  | .Module _ l => l
  | .Assignment _ _ _ l => l
  | .Pattern _ _ _ l => l
  | .Join _ _ l => l
  | .Function _ _ l => l
  | .Block _ _ l => l
  | .Call _ _ l => l
  | .Subscript _ _ l => l
  | .Attribute _ _ l => l
  | .Slice _ _ l => l
  | .Symbol _ l => l
  | .Literal _ l => l
  | .Placeholder _ _ => Option.none

/-- AST.__init__ line inference: the first line found among the
children, in field order. -/
def firstLine (xs : List (Option Nat)) : Option Nat := (xs.filterMap id).head?

def idxErr : Error := .mk "IndexError" "list index out of range" Option.none

/-- The dispatch labels of the toast elif chain.  kOp covers the final
`node.data in opname` case (operator nodes rewritten into calls);
the tilde family is matched by its own earlier branch. -/
inductive NodeKind where
  | kPass | kStart | kFuncassign | kAssign | kSymfam (op : String) | kPattern | kJoin
  | kFunction | kParamlist | kBlock | kCall | kArglist | kSubscript | kAttribute
  | kSlice1 | kSlice2 | kSlice12 | kSymbol | kInt | kFloat | kOp (op : String)
  | kOther (data : String)
deriving Repr

def kindOf : String → NodeKind
  | "pass" => .kPass
  | "start" => .kStart
  | "funcassign" => .kFuncassign
  | "assignment" => .kAssign
  | "patassign" => .kAssign
  | "symmetric" => .kSymfam "~"
  | "allsymmetric" => .kSymfam "~~"
  | "asymmetric" => .kSymfam "!~"
  | "allasymmetric" => .kSymfam "!~~"
  | "pattern" => .kPattern
  | "join" => .kJoin
  | "function" => .kFunction
  | "paramlist" => .kParamlist
  | "block" => .kBlock
  | "call" => .kCall
  | "arglist" => .kArglist
  | "subscript" => .kSubscript
  | "attribute" => .kAttribute
  | "slice1" => .kSlice1
  | "slice2" => .kSlice2
  | "slice12" => .kSlice12
  | "symbol" => .kSymbol
  | "int" => .kInt
  | "float" => .kFloat
  | "and" => .kOp "and"
  | "or" => .kOp "or"
  | "not" => .kOp "not"
  | "eq" => .kOp "=="
  | "ne" => .kOp "!="
  | "gt" => .kOp ">"
  | "ge" => .kOp ">="
  | "lt" => .kOp "<"
  | "le" => .kOp "<="
  | "add" => .kOp "+"
  | "sub" => .kOp "-"
  | "mul" => .kOp "*"
  | "div" => .kOp "/"
  | "pos" => .kOp "+"
  | "neg" => .kOp "-"
  | "pow" => .kOp "**"
  | d => .kOther d

def parseFloat (s : String) : Option Rat :=
  match s.splitOn "." with
  | [a] => a.toNat?.map (fun n => (n : Rat))
  | [a, b] =>
    match a.toNat?, b.toNat? with
    | some x, some y => some ((x : Rat) + (y : Rat) / ((10 : Rat) ^ b.length))
    | _, _ => Option.none
  | _ => Option.none

abbrev TB := Except Error (TRes × BState)

def toastEach (F : PTree → Option Nat → BState → TB) (m : Option Nat) :
    List PTree → BState → Except Error (List TRes × BState)
  | [], st => .ok ([], st)
  | x :: xs, st =>
    match F x m st with
    | .error e => .error e
    | .ok (r, st1) =>
      match toastEach F m xs st1 with
      | .error e => .error e
      | .ok (rs, st2) => .ok (r :: rs, st2)

def allASTs : List TRes → Except Error (List AST)
  | [] => .ok []
  | r :: rs =>
    match r.asAST with
    | .error e => .error e
    | .ok a =>
      match allASTs rs with
      | .error e => .error e
      | .ok xs => .ok (a :: xs)

/-- One dispatch step of toast, parameterized by the recursive call;
branch order and content mirror the elif chain of the source. -/
def toastStep (F : PTree → Option Nat → BState → TB) :
    PTree → Option Nat → BState → TB
  | .token _ _, _, _ =>
    .error (.mk "AttributeError" "'Token' object has no attribute 'data'" Option.none)
  | .node data children, m, st =>
    match kindOf data with
    | .kPass =>
      match children with
      | c :: _ => F c m st
      | [] => .error idxErr
    | .kStart =>
      match toastEach F m (children.filter (fun c => !isToken c)) st with
      | .error e => .error e
      | .ok (rs, st1) =>
        match allASTs rs with
        | .error e => .error e
        | .ok stmts => .ok (.ast (.Module stmts (firstLine (stmts.map lineOf))), st1)
    | .kFuncassign =>
      match children with
      | [] => .error idxErr
      | c0 :: rest =>
        match F (rest.getLastD c0) m st with
        | .error e => .error e
        | .ok (rb, st1) =>
          match rb.asAST with
          | .error e => .error e
          | .ok b =>
            let params := rest.dropLast
            let fnLine := firstLine (params.map tokLine ++ [lineOf b])
            .ok (.ast (.Assignment (strOf c0) "="
                        (.Function (params.map strOf) b fnLine) fnLine), st1)
    | .kAssign =>
      match children with
      | c0 :: c1 :: _ =>
        match F c1 m st with
        | .error e => .error e
        | .ok (rb, st1) =>
          match rb.asAST with
          | .error e => .error e
          | .ok b => .ok (.ast (.Assignment (strOf c0) "=" b (lineOf b)), st1)
      | _ => .error idxErr
    | .kSymfam op =>
      match m with
      | Option.none =>
        -- the source's raise line builds its SyntaxError message with
        -- str.format on a template mixing the manual field 0 with a
        -- brace-dots-brace field, so .format itself raises this ValueError
        -- and the SyntaxError is never constructed
        .error (.mk "ValueError"
          "cannot switch from manual field specification to automatic field numbering"
          Option.none)
      | some mid =>
        match children with
        | c0 :: c1 :: _ =>
          match F c1 (some mid) st with
          | .error e => .error e
          | .ok (r, st1) =>
            match r.asAST with
            | .error e => .error e
            | .ok a =>
              if mid < st1.cands.length then
                .ok (.ast (.Assignment (strOf c0) op
                            (.Placeholder mid (st1.cands.getD mid []).length) Option.none),
                     { st1 with cands := st1.cands.set mid (st1.cands.getD mid [] ++ [a]) })
              else .error modelErr
        | _ => .error idxErr
    | .kPattern =>
      match toastEach F m (children.filter (fun c => !isToken c)) st with
      | .error e => .error e
      | .ok (rs, st1) =>
        match allASTs rs with
        | .error e => .error e
        | .ok asgns =>
          .ok (.ast (.Pattern asgns m st1.nextTag (firstLine (asgns.map lineOf))),
               { st1 with nextTag := st1.nextTag + 1 })
    | .kJoin =>
      match children with
      | c0 :: _ =>
        match F c0 (some st.cands.length) { st with cands := st.cands ++ [[]] } with
        | .error e => .error e
        | .ok (r, st1) =>
          match r.asAST with
          | .error e => .error e
          | .ok e0 => .ok (.ast (.Join e0 st.cands.length (lineOf e0)), st1)
      | [] => .error idxErr
    | .kFunction =>
      match children with
      | c0 :: c1 :: _ =>
        match F c0 m st with
        | .error e => .error e
        | .ok (r0, st1) =>
          match r0.asNames with
          | .error e => .error e
          | .ok ns =>
            match F c1 Option.none st1 with
            | .error e => .error e
            | .ok (r1, st2) =>
              match r1.asAST with
              | .error e => .error e
              | .ok b => .ok (.ast (.Function ns b (lineOf b)), st2)
      | _ => .error idxErr
    | .kParamlist => .ok (.names (children.map strOf), st)
    | .kBlock =>
      match toastEach F m (children.filter (fun c => !isToken c)) st with
      | .error e => .error e
      | .ok (rs, st1) =>
        match rs with
        | [r] => .ok (r, st1)
        | _ =>
          match allASTs rs with
          | .error e => .error e
          | .ok items =>
            match items.getLast? with
            | some e0 =>
              .ok (.ast (.Block items.dropLast e0 (firstLine (items.map lineOf))), st1)
            | Option.none => .error idxErr
    | .kCall =>
      match children with
      | c0 :: c1 :: _ =>
        match F c0 m st with
        | .error e => .error e
        | .ok (r0, st1) =>
          match r0.asAST with
          | .error e => .error e
          | .ok f =>
            match F c1 m st1 with
            | .error e => .error e
            | .ok (r1, st2) =>
              match r1.asList with
              | .error e => .error e
              | .ok args =>
                .ok (.ast (.Call f args (firstLine (lineOf f :: args.map lineOf))), st2)
      | _ => .error idxErr
    | .kArglist =>
      match toastEach F m children st with
      | .error e => .error e
      | .ok (rs, st1) =>
        match allASTs rs with
        | .error e => .error e
        | .ok xs => .ok (.astList xs, st1)
    | .kSubscript =>
      match children with
      | c0 :: c1 :: _ =>
        match F c0 m st with
        | .error e => .error e
        | .ok (r0, st1) =>
          match r0.asAST with
          | .error e => .error e
          | .ok o =>
            match F c1 m st1 with
            | .error e => .error e
            | .ok (r1, st2) =>
              match r1.asAST with
              | .error e => .error e
              | .ok ix => .ok (.ast (.Subscript o ix (firstLine [lineOf o, lineOf ix])), st2)
      | _ => .error idxErr
    | .kAttribute =>
      match children with
      | c0 :: c1 :: _ =>
        match F c0 m st with
        | .error e => .error e
        | .ok (r0, st1) =>
          match r0.asAST with
          | .error e => .error e
          | .ok o =>
            .ok (.ast (.Attribute o (strOf c1) (firstLine [lineOf o, tokLine c1])), st1)
      | _ => .error idxErr
    | .kSlice1 =>
      match children with
      | c0 :: _ =>
        match F c0 m st with
        | .error e => .error e
        | .ok (r0, st1) =>
          match r0.asAST with
          | .error e => .error e
          | .ok a => .ok (.ast (.Slice (some a) Option.none (lineOf a)), st1)
      | [] => .error idxErr
    | .kSlice2 =>
      match children with
      | c0 :: _ =>
        match F c0 m st with
        | .error e => .error e
        | .ok (r0, st1) =>
          match r0.asAST with
          | .error e => .error e
          | .ok a => .ok (.ast (.Slice Option.none (some a) (lineOf a)), st1)
      | [] => .error idxErr
    | .kSlice12 =>
      match children with
      | c0 :: c1 :: _ =>
        match F c0 m st with
        | .error e => .error e
        | .ok (r0, st1) =>
          match r0.asAST with
          | .error e => .error e
          | .ok a =>
            match F c1 m st1 with
            | .error e => .error e
            | .ok (r1, st2) =>
              match r1.asAST with
              | .error e => .error e
              | .ok b => .ok (.ast (.Slice (some a) (some b) (firstLine [lineOf a, lineOf b])), st2)
      | _ => .error idxErr
    | .kSymbol =>
      match children with
      | c :: _ => .ok (.ast (.Symbol (strOf c) (tokLine c)), st)
      | [] => .error idxErr
    | .kInt =>
      match children with
      | c :: _ =>
        match (strOf c).toNat? with
        | some n => .ok (.ast (.Literal (.int n) (tokLine c)), st)
        | Option.none => .error modelErr
      | [] => .error idxErr
    | .kFloat =>
      match children with
      | c :: _ =>
        match parseFloat (strOf c) with
        | some q => .ok (.ast (.Literal (.float q) (tokLine c)), st)
        | Option.none => .error modelErr
      | [] => .error idxErr
    | .kOp op =>
      match toastEach F m children st with
      | .error e => .error e
      | .ok (rs, st1) =>
        match allASTs rs with
        | .error e => .error e
        | .ok xs =>
          .ok (.ast (.Call (.Symbol op Option.none) xs (firstLine (xs.map lineOf))), st1)
    | .kOther d => .error (.mk "AssertionError" d Option.none)

/-- The AST builder, with fuel for the recursion over parse trees;
toast (fuel+1) unfolds to toastStep (toast fuel). -/
def toast : Nat → PTree → Option Nat → BState → TB
  | 0 => fun _ _ _ => .error fuelErr
  | fuel + 1 => toastStep (toast fuel)

theorem toast_succ (fuel : Nat) : toast (fuel + 1) = toastStep (toast fuel) := rfl

def emptyB : BState := ⟨[], 0⟩

/-- The scope chain visible from a frame, for stating that an update
to a frame outside the chain cannot affect a lookup. -/
def chainF : Nat → St → Nat → List Nat
  | 0, _, _ => []
  | fuel + 1, st, sid =>
    sid :: (match st.findFrame sid with
            | some f =>
              (match f.parent with
               | some p => chainF fuel st p
               | Option.none => [])
            | Option.none => [])

lemma dictFind_append_of_none {l : List (String × Value)} {k : String} (n : String) (v : Value)
    (h : dictFind l k = Option.none) :
    dictFind (l ++ [(n, v)]) k = if n = k then some v else Option.none := by
  induction l with
  | nil => simp [dictFind]
  | cons p rest ih =>
    obtain ⟨a, b⟩ := p
    by_cases hp : a = k
    · simp [dictFind, hp] at h
    · simp only [dictFind, hp, if_false] at h
      simp only [List.cons_append, dictFind, hp, if_false]
      exact ih h

lemma dictFind_append_of_some {l : List (String × Value)} {k : String} {w : Value} (n : String) (v : Value)
    (h : dictFind l k = some w) :
    dictFind (l ++ [(n, v)]) k = some w := by
  induction l with
  | nil => simp [dictFind] at h
  | cons p rest ih =>
    obtain ⟨a, b⟩ := p
    by_cases hp : a = k
    · simp only [dictFind, hp, if_true] at h
      simp [dictFind, hp, h]
    · simp only [dictFind, hp, if_false] at h
      simp only [List.cons_append, dictFind, hp, if_false]
      exact ih h

lemma assocFind_setFrame (store : List (Nat × Frame)) (sid : Nat) (f : Frame) (s : Nat) :
    assocFind (setFrame store sid f) s =
      if s = sid then (assocFind store sid).map (fun _ => f) else assocFind store s := by
  induction store with
  | nil => simp [setFrame, assocFind]
  | cons p rest ih =>
    obtain ⟨a, g⟩ := p
    rw [show setFrame ((a, g) :: rest) sid f =
         (if a = sid then (sid, f) else (a, g)) :: setFrame rest sid f from rfl]
    by_cases ha : a = sid
    · rw [if_pos ha]
      subst ha
      by_cases hs : s = a
      · subst hs
        simp [assocFind, ih]
      · have hns : ¬ (a = s) := fun h => hs h.symm
        simp [assocFind, hns, hs, ih]
    · rw [if_neg ha]
      by_cases hs : s = sid
      · subst hs
        have hna : ¬ (a = s) := ha
        simp [assocFind, hna, ih]
      · by_cases has : a = s
        · subst has
          simp [assocFind, hs, ih]
        · simp [assocFind, has, hs, ih]

lemma setitem_findFrame_ne {st : St} {sid : Nat} {n : String} {v : Value} {st' : St}
    (h : setitem st sid n v = .ok st') (s : Nat) (hs : s ≠ sid) :
    st'.findFrame s = st.findFrame s := by
  unfold setitem at h
  cases hf : st.findFrame sid with
  | none => rw [hf] at h; exact absurd h (by simp)
  | some f =>
    rw [hf] at h
    by_cases hd : (dictFind f.symbols n).isSome
    · simp [hd] at h
    · simp only [hd, Bool.false_eq_true, if_false, Except.ok.injEq] at h
      subst h
      simp only [St.findFrame, assocFind_setFrame, hs, if_false]

lemma lookupSym_setitem_outside {st : St} {sid : Nat} {n : String} {v : Value} {st' : St}
    (h : setitem st sid n v = .ok st') :
    ∀ fuel anc m, sid ∉ chainF fuel st anc →
      lookupSym fuel st' anc m = lookupSym fuel st anc m := by
  intro fuel
  induction fuel with
  | zero => intro anc m _; rfl
  | succ k ih =>
    intro anc m hch
    have hanc : anc ≠ sid := by
      intro he; exact hch (by simp [chainF, he])
    have hff : st'.findFrame anc = st.findFrame anc := setitem_findFrame_ne h anc hanc
    simp only [lookupSym, hff]
    split
    · rfl
    · rename_i f hf
      split
      · rfl
      · split
        · rename_i hd p hp
          apply ih
          intro hmem
          apply hch
          simp only [chainF, hf, hp, List.mem_cons]
          exact Or.inr hmem
        · rfl

/-- C6: binding a name fails with the redefinition error exactly when
the name is already bound in that same scope, whatever the two values
are; binding a name bound only in an ancestor succeeds, after which
lookups in the child see the new value while lookups whose chain does
not pass through the child are untouched. -/
theorem rejig_C6_single_assignment_shadowing :
    (∀ (st : St) (sid : Nat) (f : Frame) (n : String) (v w : Value),
        st.findFrame sid = some f → dictFind f.symbols n = some w →
        setitem st sid n v = .error (redefErr n)) ∧
    (∀ (st : St) (sid : Nat) (f : Frame) (n : String) (v : Value),
        st.findFrame sid = some f → dictFind f.symbols n = Option.none →
        ∃ st', setitem st sid n v = .ok st' ∧ getitem st' sid n = .ok v) ∧
    (∀ (st : St) (sid : Nat) (n : String) (v : Value) (st' : St) (fuel anc : Nat) (m : String),
        setitem st sid n v = .ok st' → sid ∉ chainF fuel st anc →
        lookupSym fuel st' anc m = lookupSym fuel st anc m) := by
  refine ⟨?_, ?_, ?_⟩
  · intro st sid f n v w h1 h2
    simp [setitem, h1, h2]
  · intro st sid f n v h1 h2
    refine ⟨{ st with store := setFrame st.store sid { f with symbols := f.symbols ++ [(n, v)] } }, ?_, ?_⟩
    · simp [setitem, h1, h2]
    · have hf2 : St.findFrame
          { st with store := setFrame st.store sid { f with symbols := f.symbols ++ [(n, v)] } } sid =
          some { f with symbols := f.symbols ++ [(n, v)] } := by
        simp only [St.findFrame, assocFind_setFrame, if_pos rfl]
        rw [show St.findFrame st sid = assocFind st.store sid from rfl] at h1
        rw [h1]
        rfl
      simp only [getitem, lookupSym, hf2]
      rw [dictFind_append_of_none n v h2]
      simp
  · intro st sid n v st' fuel anc m h hch
    exact lookupSym_setitem_outside h fuel anc m hch

/-- Witness for C6 on a concrete two-frame store. -/
theorem rejig_C6_witness :
    setitem (initSt [("a", .int 1)]) 1 "a" (.int 2) = .error (redefErr "a") ∧
    (∃ st', setitem (initSt [("a", .int 1)]) 1 "b" (.int 5) = .ok st' ∧
            getitem st' 1 "b" = .ok (.int 5)) ∧
    lookupSym 1 ⟨[(1, ⟨some 0, [("a", .int 1), ("b", .int 5)]⟩), (0, builtinsFrame)], 2, []⟩ 0 "len" =
      lookupSym 1 (initSt [("a", .int 1)]) 0 "len" := by
  refine ⟨?_, ?_, ?_⟩
  · exact rejig_C6_single_assignment_shadowing.1 (initSt [("a", .int 1)]) 1
      ⟨some 0, [("a", .int 1)]⟩ "a" (.int 2) (.int 1) rfl rfl
  · exact rejig_C6_single_assignment_shadowing.2.1 (initSt [("a", .int 1)]) 1
      ⟨some 0, [("a", .int 1)]⟩ "b" (.int 5) rfl rfl
  · exact rejig_C6_single_assignment_shadowing.2.2 (initSt [("a", .int 1)]) 1 "b" (.int 5)
      ⟨[(1, ⟨some 0, [("a", .int 1), ("b", .int 5)]⟩), (0, builtinsFrame)], 2, []⟩ 1 0 "len"
      rfl (by decide)

/-- The failing input for the closure claim, as source lines:
line 1  n = 1
line 2  f(u) = n + u
line 3  g(n) = f(0)
line 4  r = g(100)
Lexical capture of the defining scope would give r = n + 0 = 1. -/
def scopeProg : AST :=
  .Module [
    .Assignment "n" "=" (.Literal (.int 1) (some 1)) (some 1),
    .Assignment "f" "=" (.Function ["u"]
      (.Call (.Symbol "+" Option.none)
        [.Symbol "n" (some 2), .Symbol "u" (some 2)] (some 2)) (some 2)) (some 2),
    .Assignment "g" "=" (.Function ["n"]
      (.Call (.Symbol "f" (some 3)) [.Literal (.int 0) (some 3)] (some 3)) (some 3)) (some 3),
    .Assignment "r" "=" (.Call (.Symbol "g" (some 4)) [.Literal (.int 100) (some 4)] (some 4)) (some 4)
  ] (some 1)

/-- C1: the claim fails on the code.  Evaluating scopeProg binds
r = 100: the free name n in f's body resolved against the caller g's
scope (n = 100), not the module scope where f was built (n = 1),
because the closure body runs in a frame chained to the caller's
scope — the source's inner function parameter shadows the defining
`symbols`.  The lexical-closure claim demands r = 1. -/
theorem rejig_C1_dynamic_scope_on_failing_input :
    (run [] 20 scopeProg 1 (initSt [])).1 = .ok Value.none ∧
    getitem (run [] 20 scopeProg 1 (initSt [])).2 1 "r" = .ok (.int 100) ∧
    (Value.int 100 = Value.int 1 → False) := by
  refine ⟨rfl, rfl, ?_⟩
  intro h
  injection h with h1
  exact absurd h1 (by decide)

/-- C4: every failure escaping the evaluation reachable from a Call,
Subscript or Attribute node is re-raised as a RuntimeError carrying
the node's line, with the original error's kind and message embedded
and the original kept as the cause; an error crossing a nested chain
ends up wrapped with the line of the outermost node it crossed last. -/
theorem rejig_C4_error_wrapping :
    (∀ (mt : List (List AST)) (fuel : Nat) (f : AST) (args : List AST) (line : Option Nat) (sc : Nat) (st : St),
        run mt (fuel + 1) (.Call f args line) sc st = wrapRes line (callCore (run mt fuel) f args sc st)) ∧
    (∀ (mt : List (List AST)) (fuel : Nat) (o ix : AST) (line : Option Nat) (sc : Nat) (st : St),
        run mt (fuel + 1) (.Subscript o ix line) sc st = wrapRes line (subsCore (run mt fuel) o ix sc st)) ∧
    (∀ (mt : List (List AST)) (fuel : Nat) (o : AST) (fld : String) (line : Option Nat) (sc : Nat) (st : St),
        run mt (fuel + 1) (.Attribute o fld line) sc st = wrapRes line (attrCore (run mt fuel) o fld sc st)) ∧
    (∀ (line : Option Nat) (e : Error),
        (wrap line e).kind = "RuntimeError" ∧ (wrap line e).cause = some e ∧
        (wrap line e).msg =
          "on line " ++ (match line with | Option.none => "???" | some n => toString n) ++
          ", encountered " ++ e.kind ++ ": " ++ e.msg) ∧
    (∀ (line : Option Nat) (e : Error) (st : St),
        wrapRes line (.error e, st) = (.error (wrap line e), st)) ∧
    (∀ (mt : List (List AST)) (fuel : Nat) (o : AST) (fld : String) (lineA : Option Nat)
        (sc : Nat) (st : St) (e : Error) (st' : St),
        run mt fuel o sc st = (.error e, st') →
        run mt (fuel + 1) (.Attribute o fld lineA) sc st = (.error (wrap lineA e), st')) ∧
    (∀ (mt : List (List AST)) (fuel : Nat) (f : AST) (args : List AST) (lineC : Option Nat)
        (sc : Nat) (st : St) (e : Error) (st' : St),
        run mt fuel f sc st = (.error e, st') →
        run mt (fuel + 1) (.Call f args lineC) sc st = (.error (wrap lineC e), st')) ∧
    (∀ (mt : List (List AST)) (fuel : Nat) (o ix : AST) (lineS : Option Nat)
        (sc : Nat) (st : St) (e : Error) (st' : St),
        run mt fuel o sc st = (.error e, st') →
        run mt (fuel + 1) (.Subscript o ix lineS) sc st = (.error (wrap lineS e), st')) := by
  refine ⟨fun _ _ _ _ _ _ _ => rfl, fun _ _ _ _ _ _ _ => rfl, fun _ _ _ _ _ _ _ => rfl,
          fun _ _ => ⟨rfl, rfl, rfl⟩, fun _ _ _ => rfl, ?_, ?_, ?_⟩
  · intro mt fuel o fld lineA sc st e st' h
    rw [run_succ]
    show wrapRes lineA (attrCore (run mt fuel) o fld sc st) = _
    simp [attrCore, h, wrapRes]
  · intro mt fuel f args lineC sc st e st' h
    rw [run_succ]
    show wrapRes lineC (callCore (run mt fuel) f args sc st) = _
    simp [callCore, h, wrapRes]
  · intro mt fuel o ix lineS sc st e st' h
    rw [run_succ]
    show wrapRes lineS (subsCore (run mt fuel) o ix sc st) = _
    simp [subsCore, h, wrapRes]

/-- Witness for C4: a bare Placeholder expression raises
AssertionError; crossing an Attribute node wraps it with that node's
line and keeps the original as cause. -/
theorem rejig_C4_witness :
    run [] 3 (.Placeholder 0 0) 1 (initSt []) =
      (.error (.mk "AssertionError" "Placeholder" Option.none), initSt []) ∧
    run [] 4 (.Attribute (.Placeholder 0 0) "f" (some 9)) 1 (initSt []) =
      (.error (wrap (some 9) (.mk "AssertionError" "Placeholder" Option.none)), initSt []) := by
  refine ⟨rfl, ?_⟩
  exact rejig_C4_error_wrapping.2.2.2.2.2.1 [] 3 (.Placeholder 0 0) "f" (some 9) 1
    (initSt []) (.mk "AssertionError" "Placeholder" Option.none) (initSt []) rfl

/-- C9: and/or/not are dispatched through the Call path with
unevaluated operand nodes; `and` with a falsy first operand and `or`
with a truthy first operand return it without ever evaluating the
remaining argument nodes (so a failure there cannot surface), and the
non-short-circuited side returns the second operand's evaluation;
`not` returns the negated truthiness. -/
theorem rejig_C9_short_circuit_booleans :
    (∀ (mt : List (List AST)) (fuel : Nat) (a0 : AST) (rest : List AST) (l l' : Option Nat)
        (sc : Nat) (st st0 : St) (v0 : Value),
        getitem st sc "and" = .ok (.builtin "and") →
        run mt (fuel + 1) a0 sc st = (.ok v0, st0) → truthy v0 = false →
        run mt (fuel + 2) (.Call (.Symbol "and" l') (a0 :: rest) l) sc st = (.ok v0, st0)) ∧
    (∀ (mt : List (List AST)) (fuel : Nat) (a0 : AST) (rest : List AST) (l l' : Option Nat)
        (sc : Nat) (st st0 : St) (v0 : Value),
        getitem st sc "or" = .ok (.builtin "or") →
        run mt (fuel + 1) a0 sc st = (.ok v0, st0) → truthy v0 = true →
        run mt (fuel + 2) (.Call (.Symbol "or" l') (a0 :: rest) l) sc st = (.ok v0, st0)) ∧
    (∀ (mt : List (List AST)) (fuel : Nat) (a0 a1 : AST) (rest : List AST) (l l' : Option Nat)
        (sc : Nat) (st st0 : St) (v0 : Value),
        getitem st sc "and" = .ok (.builtin "and") →
        run mt (fuel + 1) a0 sc st = (.ok v0, st0) → truthy v0 = true →
        run mt (fuel + 2) (.Call (.Symbol "and" l') (a0 :: a1 :: rest) l) sc st =
          wrapRes l (run mt (fuel + 1) a1 sc st0)) ∧
    (∀ (mt : List (List AST)) (fuel : Nat) (a0 a1 : AST) (rest : List AST) (l l' : Option Nat)
        (sc : Nat) (st st0 : St) (v0 : Value),
        getitem st sc "or" = .ok (.builtin "or") →
        run mt (fuel + 1) a0 sc st = (.ok v0, st0) → truthy v0 = false →
        run mt (fuel + 2) (.Call (.Symbol "or" l') (a0 :: a1 :: rest) l) sc st =
          wrapRes l (run mt (fuel + 1) a1 sc st0)) ∧
    (∀ (mt : List (List AST)) (fuel : Nat) (a0 : AST) (rest : List AST) (l l' : Option Nat)
        (sc : Nat) (st st0 : St) (v0 : Value),
        getitem st sc "not" = .ok (.builtin "not") →
        run mt (fuel + 1) a0 sc st = (.ok v0, st0) →
        run mt (fuel + 2) (.Call (.Symbol "not" l') (a0 :: rest) l) sc st =
          (.ok (.bool (!truthy v0)), st0)) := by
  refine ⟨?_, ?_, ?_, ?_, ?_⟩
  · intro mt fuel a0 rest l l' sc st st0 v0 hb h0 ht
    rw [run_succ]
    show wrapRes l (callCore (run mt (fuel + 1)) (.Symbol "and" l') (a0 :: rest) sc st) = _
    rw [show callCore (run mt (fuel + 1)) (.Symbol "and" l') (a0 :: rest) sc st =
          (match run mt (fuel + 1) (.Symbol "and" l') sc st with
           | (.error e, st1) => (.error e, st1)
           | (.ok fv, st1) =>
             match fv with
             | .closure ps body defLine =>
               if ps.length ≠ (a0 :: rest).length then
                 (.error (.mk "TypeError"
                   ("on line " ++ pyStr defLine ++ ", function expects " ++ toString ps.length ++
                    " arguments, got " ++ toString (a0 :: rest).length) Option.none), st1)
               else
                 match runExprs (run mt (fuel + 1)) sc (a0 :: rest) st1 with
                 | (.error e, st2) => (.error e, st2)
                 | (.ok vals, st2) =>
                   match newFrame st2 (some sc) (dictBind [] ps vals) with
                   | (fid, st3) => run mt (fuel + 1) body fid st3
             | .builtin n => applyBuiltin (run mt (fuel + 1)) n (a0 :: rest) sc st1
             | v => (.error (.mk "TypeError" (pyRepr (typeName v) ++ " object is not callable") Option.none), st1)) from rfl]
    rw [show run mt (fuel + 1) (.Symbol "and" l') sc st = wrapRes l' (getitem st sc "and", st) from rfl]
    rw [hb]
    show wrapRes l (applyBuiltin (run mt (fuel + 1)) "and" (a0 :: rest) sc st) = _
    simp [applyBuiltin, show bKind "and" = BKind.bAnd from rfl, ev, argGet, h0, ht, wrapRes]
  · intro mt fuel a0 rest l l' sc st st0 v0 hb h0 ht
    rw [run_succ]
    show wrapRes l (callCore (run mt (fuel + 1)) (.Symbol "or" l') (a0 :: rest) sc st) = _
    show wrapRes l
      (match (run mt (fuel + 1) (.Symbol "or" l') sc st : RRes) with
       | (.error e, st1) => (.error e, st1)
       | (.ok fv, st1) =>
         match fv with
         | .closure ps body defLine =>
           if ps.length ≠ (a0 :: rest).length then
             (.error (.mk "TypeError"
               ("on line " ++ pyStr defLine ++ ", function expects " ++ toString ps.length ++
                " arguments, got " ++ toString (a0 :: rest).length) Option.none), st1)
           else
             match runExprs (run mt (fuel + 1)) sc (a0 :: rest) st1 with
             | (.error e, st2) => (.error e, st2)
             | (.ok vals, st2) =>
               match newFrame st2 (some sc) (dictBind [] ps vals) with
               | (fid, st3) => run mt (fuel + 1) body fid st3
         | .builtin n => applyBuiltin (run mt (fuel + 1)) n (a0 :: rest) sc st1
         | v => (.error (.mk "TypeError" (pyRepr (typeName v) ++ " object is not callable") Option.none), st1)) = _
    rw [show run mt (fuel + 1) (.Symbol "or" l') sc st = wrapRes l' (getitem st sc "or", st) from rfl]
    rw [hb]
    show wrapRes l (applyBuiltin (run mt (fuel + 1)) "or" (a0 :: rest) sc st) = _
    simp [applyBuiltin, show bKind "or" = BKind.bOr from rfl, ev, argGet, h0, ht, wrapRes]
  · intro mt fuel a0 a1 rest l l' sc st st0 v0 hb h0 ht
    rw [run_succ]
    show wrapRes l (callCore (run mt (fuel + 1)) (.Symbol "and" l') (a0 :: a1 :: rest) sc st) = _
    show wrapRes l
      (match (run mt (fuel + 1) (.Symbol "and" l') sc st : RRes) with
       | (.error e, st1) => (.error e, st1)
       | (.ok fv, st1) =>
         match fv with
         | .closure ps body defLine =>
           if ps.length ≠ (a0 :: a1 :: rest).length then
             (.error (.mk "TypeError"
               ("on line " ++ pyStr defLine ++ ", function expects " ++ toString ps.length ++
                " arguments, got " ++ toString (a0 :: a1 :: rest).length) Option.none), st1)
           else
             match runExprs (run mt (fuel + 1)) sc (a0 :: a1 :: rest) st1 with
             | (.error e, st2) => (.error e, st2)
             | (.ok vals, st2) =>
               match newFrame st2 (some sc) (dictBind [] ps vals) with
               | (fid, st3) => run mt (fuel + 1) body fid st3
         | .builtin n => applyBuiltin (run mt (fuel + 1)) n (a0 :: a1 :: rest) sc st1
         | v => (.error (.mk "TypeError" (pyRepr (typeName v) ++ " object is not callable") Option.none), st1)) = _
    rw [show run mt (fuel + 1) (.Symbol "and" l') sc st = wrapRes l' (getitem st sc "and", st) from rfl]
    rw [hb]
    show wrapRes l (applyBuiltin (run mt (fuel + 1)) "and" (a0 :: a1 :: rest) sc st) = _
    simp only [applyBuiltin, show bKind "and" = BKind.bAnd from rfl, ev, argGet, List.get?, h0, ht, if_true]
    cases hr : run mt (fuel + 1) a1 sc st0 with
    | mk r st1 =>
      cases r with
      | error e => simp [wrapRes]
      | ok v => simp [wrapRes]
  · intro mt fuel a0 a1 rest l l' sc st st0 v0 hb h0 ht
    rw [run_succ]
    show wrapRes l (callCore (run mt (fuel + 1)) (.Symbol "or" l') (a0 :: a1 :: rest) sc st) = _
    show wrapRes l
      (match (run mt (fuel + 1) (.Symbol "or" l') sc st : RRes) with
       | (.error e, st1) => (.error e, st1)
       | (.ok fv, st1) =>
         match fv with
         | .closure ps body defLine =>
           if ps.length ≠ (a0 :: a1 :: rest).length then
             (.error (.mk "TypeError"
               ("on line " ++ pyStr defLine ++ ", function expects " ++ toString ps.length ++
                " arguments, got " ++ toString (a0 :: a1 :: rest).length) Option.none), st1)
           else
             match runExprs (run mt (fuel + 1)) sc (a0 :: a1 :: rest) st1 with
             | (.error e, st2) => (.error e, st2)
             | (.ok vals, st2) =>
               match newFrame st2 (some sc) (dictBind [] ps vals) with
               | (fid, st3) => run mt (fuel + 1) body fid st3
         | .builtin n => applyBuiltin (run mt (fuel + 1)) n (a0 :: a1 :: rest) sc st1
         | v => (.error (.mk "TypeError" (pyRepr (typeName v) ++ " object is not callable") Option.none), st1)) = _
    rw [show run mt (fuel + 1) (.Symbol "or" l') sc st = wrapRes l' (getitem st sc "or", st) from rfl]
    rw [hb]
    show wrapRes l (applyBuiltin (run mt (fuel + 1)) "or" (a0 :: a1 :: rest) sc st) = _
    simp only [applyBuiltin, show bKind "or" = BKind.bOr from rfl, ev, argGet, List.get?, h0, ht, if_false]
    cases hr : run mt (fuel + 1) a1 sc st0 with
    | mk r st1 =>
      cases r with
      | error e => simp [wrapRes]
      | ok v => simp [wrapRes]
  · intro mt fuel a0 rest l l' sc st st0 v0 hb h0
    rw [run_succ]
    show wrapRes l (callCore (run mt (fuel + 1)) (.Symbol "not" l') (a0 :: rest) sc st) = _
    show wrapRes l
      (match (run mt (fuel + 1) (.Symbol "not" l') sc st : RRes) with
       | (.error e, st1) => (.error e, st1)
       | (.ok fv, st1) =>
         match fv with
         | .closure ps body defLine =>
           if ps.length ≠ (a0 :: rest).length then
             (.error (.mk "TypeError"
               ("on line " ++ pyStr defLine ++ ", function expects " ++ toString ps.length ++
                " arguments, got " ++ toString (a0 :: rest).length) Option.none), st1)
           else
             match runExprs (run mt (fuel + 1)) sc (a0 :: rest) st1 with
             | (.error e, st2) => (.error e, st2)
             | (.ok vals, st2) =>
               match newFrame st2 (some sc) (dictBind [] ps vals) with
               | (fid, st3) => run mt (fuel + 1) body fid st3
         | .builtin n => applyBuiltin (run mt (fuel + 1)) n (a0 :: rest) sc st1
         | v => (.error (.mk "TypeError" (pyRepr (typeName v) ++ " object is not callable") Option.none), st1)) = _
    rw [show run mt (fuel + 1) (.Symbol "not" l') sc st = wrapRes l' (getitem st sc "not", st) from rfl]
    rw [hb]
    show wrapRes l (applyBuiltin (run mt (fuel + 1)) "not" (a0 :: rest) sc st) = _
    simp [applyBuiltin, show bKind "not" = BKind.bNot from rfl, ev, argGet, h0, wrapRes]

/-- Witness for C9: `and` with falsy 0 returns 0 though the second
argument is a bare Placeholder that would raise; `or` with truthy 3
likewise; `not 0` gives True. -/
theorem rejig_C9_witness :
    run [] 5 (.Call (.Symbol "and" Option.none) [.Literal (.int 0) (some 1), .Placeholder 0 0] (some 1)) 1 (initSt []) =
      (.ok (.int 0), initSt []) ∧
    run [] 5 (.Call (.Symbol "or" Option.none) [.Literal (.int 3) (some 1), .Placeholder 0 0] (some 1)) 1 (initSt []) =
      (.ok (.int 3), initSt []) ∧
    run [] 5 (.Call (.Symbol "not" Option.none) [.Literal (.int 0) (some 1)] (some 1)) 1 (initSt []) =
      (.ok (.bool true), initSt []) := by
  refine ⟨?_, ?_, ?_⟩
  · exact rejig_C9_short_circuit_booleans.1 [] 3 (.Literal (.int 0) (some 1)) [.Placeholder 0 0]
      (some 1) Option.none 1 (initSt []) (initSt []) (.int 0) rfl rfl rfl
  · exact rejig_C9_short_circuit_booleans.2.1 [] 3 (.Literal (.int 3) (some 1)) [.Placeholder 0 0]
      (some 1) Option.none 1 (initSt []) (initSt []) (.int 3) rfl rfl rfl
  · exact rejig_C9_short_circuit_booleans.2.2.2.2 [] 3 (.Literal (.int 0) (some 1)) []
      (some 1) Option.none 1 (initSt []) (initSt []) (.int 0) rfl rfl

/-- C5: a Join evaluates its registered candidate expressions exactly
once, before enumeration: the join branch is a single runExprs pass
whose continuation joinAfter receives only the resulting values; the
enumeration loop depends on the evaluator only at the body node (so no
other expression can be evaluated during enumeration); and resolving a
Placeholder reads the active row from the state — it is independent of
the candidate table and of the evaluation fuel, evaluating nothing. -/
theorem rejig_C5_candidates_evaluated_once :
    (∀ (mt : List (List AST)) (fuel : Nat) (e : AST) (mid : Nat) (l : Option Nat) (sc : Nat) (st : St),
        run mt (fuel + 1) (.Join e mid l) sc st =
          match runExprs (run mt fuel) sc (mt.getD mid []) st with
          | (.error er, st1) => (.error er, st1)
          | (.ok colls, st1) => joinAfter (run mt fuel) mid e sc colls st1) ∧
    (∀ (F : AST → Nat → St → RRes) (mid : Nat) (body : AST) (sc : Nat)
        (rows : List (List Value)) (i : Nat) (st : St),
        runRows F mid body sc rows i st =
          runRows (fun _ n s => F body n s) mid body sc rows i st) ∧
    (∀ (mt mtOther : List (List AST)) (fuel fuelOther : Nat) (s op : String) (mid slot : Nat)
        (l lOther : Option Nat) (sc : Nat) (st : St),
        run mt (fuel + 1) (.Assignment s op (.Placeholder mid slot) l) sc st =
        run mtOther (fuelOther + 1) (.Assignment s op (.Placeholder mid slot) lOther) sc st) := by
  refine ⟨fun _ _ _ _ _ _ _ => rfl, ?_, fun _ _ _ _ _ _ _ _ _ _ _ _ => rfl⟩
  intro F mid body sc rows
  induction rows with
  | nil => intro i st; rfl
  | cons row rest ih =>
    intro i st
    simp only [runRows]
    cases h : F body sc (setMatching st mid i row) with
    | mk r st1 =>
      cases r with
      | error e => rfl
      | ok v => simp only [ih]

/-- C3 counterexample: with a null matching context the build fails,
but with the ValueError raised by the broken str.format call — not a
SyntaxError-class error and not naming the operator; and with an
active matching the tilde rewrite produces an Assignment whose
operator field is the source operator "~", not "=", so the claim's
"SyntaxError-class error naming the operator" and "plain = assignment"
are both false as stated. -/
theorem rejig_C3_counterexample :
    toast 3 (.node "symmetric" [.token "a" (some 1), .node "symbol" [.token "x" (some 1)]])
        Option.none ⟨[[]], 5⟩ =
      .error (.mk "ValueError"
        "cannot switch from manual field specification to automatic field numbering"
        Option.none) ∧
    ((Error.mk "ValueError"
        "cannot switch from manual field specification to automatic field numbering"
        Option.none).kind = "SyntaxError" → False) ∧
    toast 3 (.node "symmetric" [.token "a" (some 1), .node "symbol" [.token "x" (some 1)]])
        (some 0) ⟨[[]], 5⟩ =
      .ok (.ast (.Assignment "a" "~" (.Placeholder 0 0) Option.none),
           ⟨[[.Symbol "x" (some 1)]], 5⟩) ∧
    ("~" = "=" → False) := by
  refine ⟨rfl, ?_, rfl, ?_⟩
  · intro h
    exact absurd h (by decide)
  · intro h
    exact absurd h (by decide)

/-- C3 amended: a tilde-family node with a null matching context fails,
but with the ValueError that str.format raises on the malformed message
template ("cannot switch from manual field specification to automatic
field numbering" — the intended SyntaxError naming the operator is
never constructed); with an active matching it registers the built
right-hand side with that Matching and produces an assignment whose
operator is the source operator and whose expression is the
Placeholder for the new slot — an assignment the evaluator treats
exactly like a plain = assignment (the operator field is ignored by
run). -/
theorem rejig_C3_tilde_rewrite :
    (∀ (fuel : Nat) (data op : String) (children : List PTree) (st : BState),
        kindOf data = .kSymfam op →
        toast (fuel + 1) (.node data children) Option.none st =
          .error (.mk "ValueError"
            "cannot switch from manual field specification to automatic field numbering"
            Option.none)) ∧
    (∀ (fuel : Nat) (data op : String) (c0 c1 : PTree) (rest : List PTree) (mid : Nat)
        (st st1 : BState) (rhs : AST),
        kindOf data = .kSymfam op →
        toast fuel c1 (some mid) st = .ok (.ast rhs, st1) →
        mid < st1.cands.length →
        toast (fuel + 1) (.node data (c0 :: c1 :: rest)) (some mid) st =
          .ok (.ast (.Assignment (strOf c0) op
                      (.Placeholder mid (st1.cands.getD mid []).length) Option.none),
               { st1 with cands := st1.cands.set mid (st1.cands.getD mid [] ++ [rhs]) })) ∧
    (∀ (mt : List (List AST)) (fuel : Nat) (s op opOther : String) (e : AST) (l lOther : Option Nat)
        (sc : Nat) (st : St),
        run mt fuel (.Assignment s op e l) sc st = run mt fuel (.Assignment s opOther e lOther) sc st) := by
  refine ⟨?_, ?_, ?_⟩
  · intro fuel data op children st hk
    rw [toast_succ]
    simp [toastStep, hk]
  · intro fuel data op c0 c1 rest mid st st1 rhs hk h1 hlt
    rw [toast_succ]
    simp [toastStep, hk, h1, TRes.asAST, hlt]
  · intro mt fuel s op opOther e l lOther sc st
    cases fuel with
    | zero => rfl
    | succ k => rfl

/-- Witness for C3 at the concrete tilde node of the counterexample. -/
theorem rejig_C3_witness :
    toast 3 (.node "symmetric" [.token "a" (some 1), .node "symbol" [.token "x" (some 1)]])
        Option.none ⟨[[]], 5⟩ =
      .error (.mk "ValueError"
        "cannot switch from manual field specification to automatic field numbering"
        Option.none) ∧
    toast 3 (.node "symmetric" [.token "a" (some 1), .node "symbol" [.token "x" (some 1)]])
        (some 0) ⟨[[]], 5⟩ =
      .ok (.ast (.Assignment "a" "~" (.Placeholder 0 0) Option.none),
           ⟨[[.Symbol "x" (some 1)]], 5⟩) ∧
    run [] 2 (.Assignment "q" "~" (.Literal (.int 1) Option.none) Option.none) 1 (initSt []) =
      run [] 2 (.Assignment "q" "=" (.Literal (.int 1) Option.none) Option.none) 1 (initSt []) := by
  refine ⟨?_, ?_, ?_⟩
  · exact rejig_C3_tilde_rewrite.1 2 "symmetric" "~"
      [.token "a" (some 1), .node "symbol" [.token "x" (some 1)]] ⟨[[]], 5⟩ rfl
  · exact rejig_C3_tilde_rewrite.2.1 2 "symmetric" "~" (.token "a" (some 1))
      (.node "symbol" [.token "x" (some 1)]) [] 0 ⟨[[]], 5⟩ ⟨[[]], 5⟩
      (.Symbol "x" (some 1)) rfl rfl (by decide)
  · exact rejig_C3_tilde_rewrite.2.2 [] 2 "q" "~" "=" (.Literal (.int 1) Option.none)
      Option.none Option.none 1 (initSt [])

def natProd : List Nat → Nat := List.foldr (fun a b => a * b) 1

lemma flatMapL_length_const {α β : Type} (f : α → List β) (N : Nat)
    (h : ∀ x, (f x).length = N) (l : List α) :
    (flatMapL f l).length = l.length * N := by
  induction l with
  | nil => simp [flatMapL]
  | cons x xs ih =>
    show (f x ++ flatMapL f xs).length = (x :: xs).length * N
    rw [List.length_append, h, ih, List.length_cons, Nat.succ_mul]
    omega

lemma flatMapL_eq_nil {α β : Type} (f : α → List β) (h : ∀ x, f x = []) (l : List α) :
    flatMapL f l = [] := by
  induction l with
  | nil => rfl
  | cons x xs ih =>
    show f x ++ flatMapL f xs = []
    rw [h, ih]
    rfl

lemma product_length (ls : List (List Value)) :
    (product ls).length = natProd (ls.map List.length) := by
  induction ls with
  | nil => rfl
  | cons l ls ih =>
    show (flatMapL (fun x => (product ls).map (fun r => x :: r)) l).length = _
    rw [flatMapL_length_const _ (product ls).length (fun x => by simp), ih]
    simp [natProd]

lemma product_of_mem_nil {ls : List (List Value)} (h : ∃ l ∈ ls, l = []) :
    product ls = [] := by
  induction ls with
  | nil => simp at h
  | cons l ls ih =>
    obtain ⟨l0, hmem, h0⟩ := h
    rcases List.mem_cons.mp hmem with h1 | h1
    · rw [h0] at h1
      rw [← h1]
      rfl
    · have hp : product ls = [] := ih ⟨l0, h1, h0⟩
      show flatMapL (fun x => (product ls).map (fun r => x :: r)) l = []
      rw [hp]
      exact flatMapL_eq_nil _ (fun x => rfl) l

lemma getD_append_lt {α : Type} (as bs : List α) (d : α) (i : Nat) (h : i < as.length) :
    (as ++ bs).getD i d = as.getD i d := by
  induction as generalizing i with
  | nil => simp at h
  | cons a as' ih =>
    cases i with
    | zero => rfl
    | succ k =>
      simp only [List.cons_append, List.getD_cons_succ]
      exact ih k (by simpa using h)

lemma getD_append_ge {α : Type} (as bs : List α) (d : α) (i : Nat) (h : as.length ≤ i) :
    (as ++ bs).getD i d = bs.getD (i - as.length) d := by
  induction as generalizing i with
  | nil => simp
  | cons a as' ih =>
    cases i with
    | zero => simp at h
    | succ k =>
      simp only [List.cons_append, List.getD_cons_succ, List.length_cons,
                 Nat.succ_sub_succ]
      exact ih k (by simpa using h)

lemma getD_map_cons (P : List (List Value)) (x : Value) (i : Nat) (h : i < P.length) :
    (P.map (fun r => x :: r)).getD i [] = x :: P.getD i [] := by
  induction P generalizing i with
  | nil => simp at h
  | cons p ps ih =>
    cases i with
    | zero => rfl
    | succ k =>
      simp only [List.map_cons, List.getD_cons_succ]
      exact ih k (by simpa using h)

/-- Row-major meaning of the product order: entry i selects index
i / N from the first collection and continues with i % N in the rest,
where N is the size of the rest's product — the last slot varies
fastest. -/
lemma product_getD (l : List Value) (ls : List (List Value)) (i : Nat)
    (h : i < l.length * (product ls).length) :
    (product (l :: ls)).getD i [] =
      l.getD (i / (product ls).length) Value.none ::
        (product ls).getD (i % (product ls).length) [] := by
  induction l generalizing i with
  | nil => simp at h
  | cons x l' ih =>
    have hN : 0 < (product ls).length := by
      rcases Nat.eq_zero_or_pos (product ls).length with h0 | h0
      · rw [h0, Nat.mul_zero] at h
        exact absurd h (Nat.not_lt_zero i)
      · exact h0
    show ((product ls).map (fun r => x :: r) ++
          flatMapL (fun y => (product ls).map (fun r => y :: r)) l').getD i [] = _
    by_cases hi : i < (product ls).length
    · rw [getD_append_lt _ _ _ _ (by simpa using hi)]
      rw [getD_map_cons _ _ _ hi]
      rw [Nat.div_eq_of_lt hi, Nat.mod_eq_of_lt hi]
      rfl
    · push_neg at hi
      rw [getD_append_ge _ _ _ _ (by simpa using hi)]
      have hlt : i - (product ls).length < l'.length * (product ls).length := by
        rw [List.length_cons, Nat.succ_mul] at h
        omega
      have hih := ih (i - (product ls).length) hlt
      rw [show (List.map (fun r => x :: r) (product ls)).length = (product ls).length from by simp]
      rw [show flatMapL (fun y => (product ls).map (fun r => y :: r)) l' = product (l' :: ls) from rfl]
      rw [hih]
      rw [Nat.div_eq_sub_div hN hi, Nat.mod_eq_sub_mod hi]
      simp [List.getD_cons_succ]

/-- Success characterization of the enumeration loop: the j-th result
is a body evaluation performed with the Matching's current index set
to i0+j and current row set to the j-th row. -/
lemma runRows_ok (F : AST → Nat → St → RRes) (mid : Nat) (body : AST) (sc : Nat) :
    ∀ (rows : List (List Value)) (i : Nat) (st : St) (vs : List Value) (st' : St),
      runRows F mid body sc rows i st = (.ok vs, st') →
      vs.length = rows.length ∧
      ∀ j (hj : j < vs.length), ∃ stIn stOut,
        F body sc (setMatching stIn mid (i + j) (rows.getD j [])) =
          (.ok (vs.get ⟨j, hj⟩), stOut) := by
  intro rows
  induction rows with
  | nil =>
    intro i st vs st' h
    replace h : ((Except.ok [] : Except Error (List Value)), st) = (.ok vs, st') := h
    injection h with h1 h2
    injection h1 with h1
    subst h1
    exact ⟨rfl, fun j hj => absurd hj (by simp)⟩
  | cons row rest ih =>
    intro i st vs st' h
    simp only [runRows] at h
    cases hb : F body sc (setMatching st mid i row) with
    | mk r st1 =>
      rw [hb] at h
      cases r with
      | error e =>
        replace h : ((Except.error e : Except Error (List Value)), st1) = (.ok vs, st') := h
        injection h with h1 h2
        exact Except.noConfusion h1
      | ok v =>
        replace h : (match runRows F mid body sc rest (i + 1) st1 with
                     | (Except.error e, stE) => ((Except.error e : Except Error (List Value)), stE)
                     | (Except.ok vs2, stO) => (Except.ok (v :: vs2), stO)) = (Except.ok vs, st') := h
        cases hr : runRows F mid body sc rest (i + 1) st1 with
        | mk r2 st2 =>
          rw [hr] at h
          cases r2 with
          | error e =>
            replace h : ((Except.error e : Except Error (List Value)), st2) = (.ok vs, st') := h
            injection h with h1 h2
            exact Except.noConfusion h1
          | ok vs' =>
            replace h : ((Except.ok (v :: vs') : Except Error (List Value)), st2) = (.ok vs, st') := h
            injection h with h1 h2
            injection h1 with h1
            subst h1
            obtain ⟨ihlen, ihidx⟩ := ih (i + 1) st1 vs' st2 hr
            refine ⟨by simp [ihlen], ?_⟩
            intro j hj
            cases j with
            | zero =>
              refine ⟨st, st1, ?_⟩
              simpa using hb
            | succ k =>
              have hk : k < vs'.length := by simpa using hj
              obtain ⟨stIn, stOut, hF⟩ := ihidx k hk
              refine ⟨stIn, stOut, ?_⟩
              have harith : i + (k + 1) = (i + 1) + k := by omega
              rw [harith]
              simpa using hF

/-- C2: for a Join whose candidates evaluate to collections
l1, ..., lk, run yields exactly the body-evaluation results for
combination index 0 to (n1*...*nk)-1 in row-major order (last slot
fastest), each performed with the Matching's current index set to j
and current row set to the j-th product tuple; the sequence length is
the product of the collection lengths, and zero if any collection is
empty.  The row-major reading of the j-th tuple is pinned by the
product_getD conjunct. -/
theorem rejig_C2_join_enumeration :
    (∀ (ls : List (List Value)), (product ls).length = natProd (ls.map List.length)) ∧
    (∀ (ls : List (List Value)), (∃ l ∈ ls, l = []) → product ls = []) ∧
    (∀ (l : List Value) (ls : List (List Value)) (i : Nat),
        i < l.length * (product ls).length →
        (product (l :: ls)).getD i [] =
          l.getD (i / (product ls).length) Value.none ::
            (product ls).getD (i % (product ls).length) []) ∧
    (∀ (mt : List (List AST)) (fuel : Nat) (body : AST) (mid : Nat) (l : Option Nat) (sc : Nat)
        (st st1 : St) (colls : List Value) (lists : List (List Value)) (vs : List Value) (st2 : St),
        runExprs (run mt fuel) sc (mt.getD mid []) st = (.ok colls, st1) →
        iterAll colls = .ok lists →
        runRows (run mt fuel) mid body sc (product lists) 0 st1 = (.ok vs, st2) →
        run mt (fuel + 1) (.Join body mid l) sc st = (.ok (.list vs), st2) ∧
        vs.length = natProd (lists.map List.length) ∧
        ((∃ l0 ∈ lists, l0 = []) → vs = []) ∧
        (∀ j (hj : j < vs.length), ∃ stIn stOut,
          run mt fuel body sc (setMatching stIn mid j ((product lists).getD j [])) =
            (.ok (vs.get ⟨j, hj⟩), stOut))) := by
  refine ⟨product_length, fun ls h => product_of_mem_nil h, product_getD, ?_⟩
  intro mt fuel body mid l sc st st1 colls lists vs st2 h1 h2 h3
  obtain ⟨hlen, hidx⟩ := runRows_ok (run mt fuel) mid body sc (product lists) 0 st1 vs st2 h3
  refine ⟨?_, ?_, ?_, ?_⟩
  · rw [run_succ]
    show joinRun (run mt fuel) (mt.getD mid []) mid body sc st = _
    simp only [joinRun, h1, joinAfter, h2, h3]
  · rw [hlen, product_length]
  · intro hm
    have hp : product lists = [] := product_of_mem_nil hm
    rw [hp] at h3
    replace h3 : ((Except.ok [] : Except Error (List Value)), st1) = (.ok vs, st2) := h3
    injection h3 with ha hb
    injection ha with ha
    exact ha.symm
  · intro j hj
    have := hidx j hj
    simpa using this

/-- Witness for C2: candidates x = [1,2,3] and y = ["A","B"] with a
constant body; six results, matchings state left at index 5 with the
last row-major tuple (3, "B"). -/
theorem rejig_C2_witness :
    run [[.Symbol "x" (some 1), .Symbol "y" (some 1)]] 10
        (.Join (.Literal (.int 9) Option.none) 0 Option.none) 1
        (initSt [("x", .list [.int 1, .int 2, .int 3]), ("y", .list [.str "A", .str "B"])]) =
      (.ok (.list [.int 9, .int 9, .int 9, .int 9, .int 9, .int 9]),
       ⟨(initSt [("x", .list [.int 1, .int 2, .int 3]), ("y", .list [.str "A", .str "B"])]).store, 2,
        [(0, (5, [.int 3, .str "B"]))]⟩) ∧
    [Value.int 9, .int 9, .int 9, .int 9, .int 9, .int 9].length = natProd [3, 2] := by
  have happ := rejig_C2_join_enumeration.2.2.2
    [[.Symbol "x" (some 1), .Symbol "y" (some 1)]] 9 (.Literal (.int 9) Option.none) 0
    Option.none 1
    (initSt [("x", .list [.int 1, .int 2, .int 3]), ("y", .list [.str "A", .str "B"])])
    (initSt [("x", .list [.int 1, .int 2, .int 3]), ("y", .list [.str "A", .str "B"])])
    [.list [.int 1, .int 2, .int 3], .list [.str "A", .str "B"]]
    [[.int 1, .int 2, .int 3], [.str "A", .str "B"]]
    [.int 9, .int 9, .int 9, .int 9, .int 9, .int 9]
    ⟨(initSt [("x", .list [.int 1, .int 2, .int 3]), ("y", .list [.str "A", .str "B"])]).store, 2,
     [(0, (5, [.int 3, .str "B"]))]⟩
    rfl rfl rfl
  exact ⟨happ.1, happ.2.1⟩

/-- Name n is bound to v in scope sid's own dict. -/
def boundIn (st : St) (sid : Nat) (n : String) (v : Value) : Prop :=
  ∃ f, st.findFrame sid = some f ∧ dictFind f.symbols n = some v

/-- Everything bound in st is still bound, to the same value, in st':
the evaluator only ever adds bindings (there is no unbind and no
rollback). -/
def Extends (st st' : St) : Prop :=
  ∀ sid n v, boundIn st sid n v → boundIn st' sid n v

/-- Store sanity: frame ids below the allocator, per-frame keys
pairwise distinct. -/
def WFSt (st : St) : Prop :=
  (∀ p, p ∈ st.store → p.1 < st.nextScope) ∧
  (∀ p, p ∈ st.store → (p.2.symbols.map Prod.fst).Nodup)

def StRel (st st' : St) : Prop := WFSt st → (WFSt st' ∧ Extends st st')

lemma strel_refl (st : St) : StRel st st :=
  fun h => ⟨h, fun _ _ _ hb => hb⟩

lemma strel_trans {a b c : St} (h1 : StRel a b) (h2 : StRel b c) : StRel a c := by
  intro ha
  obtain ⟨hb, e1⟩ := h1 ha
  obtain ⟨hc, e2⟩ := h2 hb
  exact ⟨hc, fun s n v h => e2 s n v (e1 s n v h)⟩

lemma dictFind_eq_none_iff {l : List (String × Value)} {k : String} :
    dictFind l k = Option.none ↔ k ∉ l.map Prod.fst := by
  induction l with
  | nil => simp [dictFind]
  | cons p rest ih =>
    obtain ⟨a, b⟩ := p
    simp only [dictFind, List.map_cons, List.mem_cons]
    by_cases hp : a = k
    · subst hp
      simp
    · have hka : ¬ (k = a) := fun h => hp h.symm
      simp [hp, hka, ih]

lemma assocFind_mem {α : Type} {l : List (Nat × α)} {k : Nat} {v : α}
    (h : assocFind l k = some v) : (k, v) ∈ l := by
  induction l with
  | nil => simp [assocFind] at h
  | cons p rest ih =>
    obtain ⟨a, b⟩ := p
    by_cases hp : a = k
    · subst hp
      rw [show assocFind ((a, b) :: rest) a = some b from by simp [assocFind]] at h
      injection h with h
      subst h
      exact List.mem_cons_self _ _
    · rw [show assocFind ((a, b) :: rest) k = assocFind rest k from by simp [assocFind, hp]] at h
      exact List.mem_cons_of_mem _ (ih h)

lemma setitem_strel {st : St} {sid : Nat} {n : String} {v : Value} {st' : St}
    (h : setitem st sid n v = .ok st') : StRel st st' := by
  unfold setitem at h
  cases hf : st.findFrame sid with
  | none => rw [hf] at h; exact absurd h (by simp)
  | some f =>
    rw [hf] at h
    by_cases hd : (dictFind f.symbols n).isSome
    · simp [hd] at h
    · simp only [hd, Bool.false_eq_true, if_false, Except.ok.injEq] at h
      subst h
      have hdn : dictFind f.symbols n = Option.none := by
        cases hdd : dictFind f.symbols n with
        | none => rfl
        | some w => rw [hdd] at hd; simp at hd
      intro hWF
      refine ⟨⟨?_, ?_⟩, ?_⟩
      · intro p hp
        obtain ⟨q, hq, hqe⟩ := List.mem_map.mp hp
        have hkey : p.1 = q.1 := by
          by_cases h1 : q.1 = sid
          · rw [← hqe]; simp [h1]
          · rw [← hqe]; simp [h1]
        rw [hkey]
        exact hWF.1 q hq
      · intro p hp
        obtain ⟨q, hq, hqe⟩ := List.mem_map.mp hp
        by_cases h1 : q.1 = sid
        · have hpf : p.2 = { f with symbols := f.symbols ++ [(n, v)] } := by
            rw [← hqe]; simp [h1]
          rw [hpf]
          have hfmem : (sid, f) ∈ st.store := assocFind_mem hf
          have hnodup : (f.symbols.map Prod.fst).Nodup := hWF.2 (sid, f) hfmem
          have hnin : n ∉ f.symbols.map Prod.fst := dictFind_eq_none_iff.mp hdn
          simp only [List.map_append, List.map_cons, List.map_nil]
          rw [List.nodup_append]
          refine ⟨hnodup, List.nodup_singleton n, ?_⟩
          intro x hx hxn
          rw [List.mem_singleton] at hxn
          subst hxn
          exact hnin hx
        · have hpf : p.2 = q.2 := by rw [← hqe]; simp [h1]
          rw [hpf]
          exact hWF.2 q hq
      · intro s m w hb
        obtain ⟨g, hg, hgd⟩ := hb
        by_cases hs : s = sid
        · subst hs
          have hgf : g = f := by
            rw [hf] at hg
            injection hg with hg
            exact hg.symm
          subst hgf
          refine ⟨{ g with symbols := g.symbols ++ [(n, v)] }, ?_, ?_⟩
          · show assocFind (setFrame st.store s _) s = _
            rw [assocFind_setFrame, if_pos rfl]
            rw [show assocFind st.store s = St.findFrame st s from rfl, hf]
            rfl
          · exact dictFind_append_of_some n v hgd
        · refine ⟨g, ?_, hgd⟩
          show assocFind (setFrame st.store sid _) s = _
          rw [assocFind_setFrame, if_neg hs]
          exact hg

lemma newFrame_strel {st : St} {parent : Option Nat} {syms : List (String × Value)}
    (hnd : (syms.map Prod.fst).Nodup) : StRel st (newFrame st parent syms).2 := by
  intro hWF
  refine ⟨⟨?_, ?_⟩, ?_⟩
  · intro p hp
    rcases List.mem_cons.mp hp with h1 | h1
    · rw [h1]
      show st.nextScope < st.nextScope + 1
      omega
    · have := hWF.1 p h1
      show p.1 < st.nextScope + 1
      omega
  · intro p hp
    rcases List.mem_cons.mp hp with h1 | h1
    · rw [h1]
      exact hnd
    · exact hWF.2 p h1
  · intro s m w hb
    obtain ⟨g, hg, hgd⟩ := hb
    refine ⟨g, ?_, hgd⟩
    have hmem := assocFind_mem hg
    have hlt := hWF.1 (s, g) hmem
    have hne : ¬ (st.nextScope = s) := by omega
    show assocFind ((st.nextScope, ⟨parent, syms⟩) :: st.store) s = some g
    simp only [assocFind, hne, if_false]
    exact hg

lemma setMatching_strel (st : St) (mid i : Nat) (row : List Value) :
    StRel st (setMatching st mid i row) :=
  fun h => ⟨h, fun _ _ _ hb => hb⟩

lemma wrapRes_snd (line : Option Nat) (r : RRes) : (wrapRes line r).2 = r.2 := by
  obtain ⟨a, st⟩ := r
  cases a <;> rfl

lemma keys_mapUpdate (l : List (String × Value)) (k : String) (v : Value) :
    ((l.map (fun p => if p.1 = k then (k, v) else p)).map Prod.fst) = l.map Prod.fst := by
  induction l with
  | nil => rfl
  | cons p rest ih =>
    obtain ⟨a, b⟩ := p
    by_cases hp : a = k
    · subst hp
      simp [ih]
    · simp [hp, ih]

lemma dictInsert_nodup {l : List (String × Value)} {k : String} {v : Value}
    (h : (l.map Prod.fst).Nodup) : ((dictInsert l k v).map Prod.fst).Nodup := by
  unfold dictInsert
  by_cases hp : (dictFind l k).isSome
  · rw [if_pos hp, keys_mapUpdate]
    exact h
  · rw [if_neg hp]
    have hdn : dictFind l k = Option.none := by
      cases hdd : dictFind l k with
      | none => rfl
      | some w => rw [hdd] at hp; simp at hp
    have hnin : k ∉ l.map Prod.fst := dictFind_eq_none_iff.mp hdn
    simp only [List.map_append, List.map_cons, List.map_nil]
    rw [List.nodup_append]
    refine ⟨h, List.nodup_singleton k, ?_⟩
    intro x hx hxk
    rw [List.mem_singleton] at hxk
    subst hxk
    exact hnin hx

lemma dictBind_nodup : ∀ (ps : List String) (vs : List Value) (acc : List (String × Value)),
    (acc.map Prod.fst).Nodup → ((dictBind acc ps vs).map Prod.fst).Nodup := by
  intro ps
  induction ps with
  | nil => intro vs acc h; cases vs <;> exact h
  | cons p ps' ih =>
    intro vs acc h
    cases vs with
    | nil => exact h
    | cons v vs' => exact ih vs' (dictInsert acc p v) (dictInsert_nodup h)

lemma runStmts_strel {F : AST → Nat → St → RRes} (hF : ∀ a n s, StRel s (F a n s).2)
    (sc : Nat) : ∀ (l : List AST) (st : St), StRel st (runStmts F sc l st).2 := by
  intro l
  induction l with
  | nil => intro st; exact strel_refl st
  | cons x xs ih =>
    intro st
    simp only [runStmts]
    cases h : F x sc st with
    | mk r st1 =>
      have h1 : StRel st st1 := by
        have hq := hF x sc st
        rw [h] at hq
        exact hq
      cases r with
      | error e => exact h1
      | ok v => exact strel_trans h1 (ih st1)

lemma runExprs_strel {F : AST → Nat → St → RRes} (hF : ∀ a n s, StRel s (F a n s).2)
    (sc : Nat) : ∀ (l : List AST) (st : St), StRel st (runExprs F sc l st).2 := by
  intro l
  induction l with
  | nil => intro st; exact strel_refl st
  | cons x xs ih =>
    intro st
    simp only [runExprs]
    cases h : F x sc st with
    | mk r st1 =>
      have h1 : StRel st st1 := by
        have hq := hF x sc st
        rw [h] at hq
        exact hq
      cases r with
      | error e => exact h1
      | ok v =>
        show StRel st (match runExprs F sc xs st1 with
                       | (Except.error e, stE) => ((Except.error e : Except Error (List Value)), stE)
                       | (Except.ok vs, stO) => (Except.ok (v :: vs), stO)).2
        cases hr : runExprs F sc xs st1 with
        | mk r2 st2 =>
          have h2 : StRel st1 st2 := by
            have hq := ih st1
            rw [hr] at hq
            exact hq
          cases r2 with
          | error e => exact strel_trans h1 h2
          | ok vs => exact strel_trans h1 h2

lemma runRows_strel {F : AST → Nat → St → RRes} (hF : ∀ a n s, StRel s (F a n s).2)
    (mid : Nat) (body : AST) (sc : Nat) :
    ∀ (rows : List (List Value)) (i : Nat) (st : St),
      StRel st (runRows F mid body sc rows i st).2 := by
  intro rows
  induction rows with
  | nil => intro i st; exact strel_refl st
  | cons row rest ih =>
    intro i st
    simp only [runRows]
    have h0 : StRel st (setMatching st mid i row) := setMatching_strel st mid i row
    cases h : F body sc (setMatching st mid i row) with
    | mk r st1 =>
      have h1 : StRel st st1 := by
        refine strel_trans h0 ?_
        have hq := hF body sc (setMatching st mid i row)
        rw [h] at hq
        exact hq
      cases r with
      | error e => exact h1
      | ok v =>
        show StRel st (match runRows F mid body sc rest (i + 1) st1 with
                       | (Except.error e, stE) => ((Except.error e : Except Error (List Value)), stE)
                       | (Except.ok vs, stO) => (Except.ok (v :: vs), stO)).2
        cases hr : runRows F mid body sc rest (i + 1) st1 with
        | mk r2 st2 =>
          have h2 : StRel st1 st2 := by
            have hq := ih (i + 1) st1
            rw [hr] at hq
            exact hq
          cases r2 with
          | error e => exact strel_trans h1 h2
          | ok vs => exact strel_trans h1 h2

lemma ev_strel {F : AST → Nat → St → RRes} (hF : ∀ a n s, StRel s (F a n s).2)
    (sc : Nat) (st : St) (args : List AST) (i : Nat)
    {k : Value → St → RRes} (hk : ∀ v s, StRel s (k v s).2) :
    StRel st (ev F sc st args i k).2 := by
  unfold ev
  cases argGet args i with
  | error e => exact strel_refl st
  | ok a =>
    show StRel st (match F a sc st with
                   | (Except.error e, st1) => ((Except.error e : Except Error Value), st1)
                   | (Except.ok v, st1) => k v st1).2
    cases h : F a sc st with
    | mk r st1 =>
      have h1 : StRel st st1 := by
        have hq := hF a sc st
        rw [h] at hq
        exact hq
      cases r with
      | error e => exact h1
      | ok v => exact strel_trans h1 (hk v st1)

lemma ev2_strel {F : AST → Nat → St → RRes} (hF : ∀ a n s, StRel s (F a n s).2)
    (sc : Nat) (st : St) (args : List AST)
    {k : Value → Value → St → RRes} (hk : ∀ a b s, StRel s (k a b s).2) :
    StRel st (ev2 F sc st args k).2 := by
  unfold ev2
  refine ev_strel hF sc st args 0 ?_
  intro v s
  refine ev_strel hF sc s args 1 ?_
  intro w s2
  exact hk v w s2

lemma unionGo_strel {F : AST → Nat → St → RRes} (hF : ∀ a n s, StRel s (F a n s).2)
    (sc : Nat) : ∀ (args : List AST) (acc : List Value) (st : St),
    StRel st (unionGo F sc args acc st).2 := by
  intro args
  induction args with
  | nil => intro acc st; exact strel_refl st
  | cons a rest ih =>
    intro acc st
    simp only [unionGo]
    cases h : F a sc st with
    | mk r st1 =>
      have h1 : StRel st st1 := by
        have hq := hF a sc st
        rw [h] at hq
        exact hq
      cases r with
      | error e => exact h1
      | ok v => cases v <;> first | exact strel_trans h1 (ih _ st1) | exact h1

lemma applyBuiltin_strel {F : AST → Nat → St → RRes} (hF : ∀ a n s, StRel s (F a n s).2)
    (name : String) (args : List AST) (sc : Nat) (st : St) :
    StRel st (applyBuiltin F name args sc st).2 := by
  unfold applyBuiltin
  cases bKind name with
  | bLen =>
    refine ev_strel hF sc st args 0 ?_
    intro v s
    exact strel_refl s
  | bAbs =>
    refine ev_strel hF sc st args 0 ?_
    intro v s
    exact strel_refl s
  | bAnd =>
    refine ev_strel hF sc st args 0 ?_
    intro v0 s1
    by_cases ht : truthy v0 = true
    · rw [if_pos ht]
      refine ev_strel hF sc s1 args 1 ?_
      intro v1 s2
      exact strel_refl s2
    · rw [if_neg ht]
      exact strel_refl s1
  | bOr =>
    refine ev_strel hF sc st args 0 ?_
    intro v0 s1
    by_cases ht : truthy v0 = true
    · rw [if_pos ht]
      exact strel_refl s1
    · rw [if_neg ht]
      refine ev_strel hF sc s1 args 1 ?_
      intro v1 s2
      exact strel_refl s2
  | bNot =>
    refine ev_strel hF sc st args 0 ?_
    intro v s
    exact strel_refl s
  | bEq =>
    refine ev2_strel hF sc st args ?_
    intro a b s
    exact strel_refl s
  | bNe =>
    refine ev2_strel hF sc st args ?_
    intro a b s
    exact strel_refl s
  | bGt =>
    refine ev2_strel hF sc st args ?_
    intro a b s
    exact strel_refl s
  | bGe =>
    refine ev2_strel hF sc st args ?_
    intro a b s
    exact strel_refl s
  | bLt =>
    refine ev2_strel hF sc st args ?_
    intro a b s
    exact strel_refl s
  | bLe =>
    refine ev2_strel hF sc st args ?_
    intro a b s
    exact strel_refl s
  | bAdd =>
    show StRel st (if args.length = 1 then ev F sc st args 0 (fun v st1 => liftE (posV v) st1)
                   else ev2 F sc st args (fun a b st2 => liftE (addV a b) st2)).2
    by_cases hl : args.length = 1
    · rw [if_pos hl]
      refine ev_strel hF sc st args 0 ?_
      intro v s
      exact strel_refl s
    · rw [if_neg hl]
      refine ev2_strel hF sc st args ?_
      intro a b s
      exact strel_refl s
  | bSub =>
    show StRel st (if args.length = 1 then ev F sc st args 0 (fun v st1 => liftE (negV v) st1)
                   else ev2 F sc st args (fun a b st2 => liftE (subV a b) st2)).2
    by_cases hl : args.length = 1
    · rw [if_pos hl]
      refine ev_strel hF sc st args 0 ?_
      intro v s
      exact strel_refl s
    · rw [if_neg hl]
      refine ev2_strel hF sc st args ?_
      intro a b s
      exact strel_refl s
  | bMul =>
    refine ev2_strel hF sc st args ?_
    intro a b s
    exact strel_refl s
  | bDiv =>
    refine ev2_strel hF sc st args ?_
    intro a b s
    exact strel_refl s
  | bPow =>
    refine ev2_strel hF sc st args ?_
    intro a b s
    exact strel_refl s
  | bTrans =>
    refine ev_strel hF sc st args 0 ?_
    intro v s
    exact strel_refl s
  | bUnion => exact unionGo_strel hF sc args [] st
  | bUnknown => exact strel_refl st

lemma callCore_strel {F : AST → Nat → St → RRes} (hF : ∀ a n s, StRel s (F a n s).2)
    (f : AST) (args : List AST) (sc : Nat) (st : St) :
    StRel st (callCore F f args sc st).2 := by
  unfold callCore
  cases h : F f sc st with
  | mk r st1 =>
    have h1 : StRel st st1 := by
      have hq := hF f sc st
      rw [h] at hq
      exact hq
    cases r with
    | error e => exact h1
    | ok fv =>
      show StRel st (match fv with
        | Value.closure ps body defLine =>
          if ps.length ≠ args.length then
            ((Except.error (Error.mk "TypeError"
              ("on line " ++ pyStr defLine ++ ", function expects " ++ toString ps.length ++
               " arguments, got " ++ toString args.length) Option.none) : Except Error Value), st1)
          else
            match runExprs F sc args st1 with
            | (Except.error e, st2) => (Except.error e, st2)
            | (Except.ok vals, st2) =>
              match newFrame st2 (some sc) (dictBind [] ps vals) with
              | (fid, st3) => F body fid st3
        | Value.builtin n => applyBuiltin F n args sc st1
        | v => (Except.error (Error.mk "TypeError" (pyRepr (typeName v) ++ " object is not callable") Option.none), st1)).2
      cases fv <;> try exact h1
      case closure ps body defLine =>
        show StRel st (if ps.length ≠ args.length then
            ((Except.error (Error.mk "TypeError"
              ("on line " ++ pyStr defLine ++ ", function expects " ++ toString ps.length ++
               " arguments, got " ++ toString args.length) Option.none) : Except Error Value), st1)
          else
            match runExprs F sc args st1 with
            | (Except.error e, st2) => (Except.error e, st2)
            | (Except.ok vals, st2) =>
              match newFrame st2 (some sc) (dictBind [] ps vals) with
              | (fid, st3) => F body fid st3).2
        by_cases harity : ps.length ≠ args.length
        · rw [if_pos harity]
          exact h1
        · rw [if_neg harity]
          show StRel st (match runExprs F sc args st1 with
            | (Except.error e, st2) => ((Except.error e : Except Error Value), st2)
            | (Except.ok vals, st2) =>
              match newFrame st2 (some sc) (dictBind [] ps vals) with
              | (fid, st3) => F body fid st3).2
          cases hre : runExprs F sc args st1 with
          | mk r2 st2 =>
            have h2 : StRel st1 st2 := by
              have hq := runExprs_strel hF sc args st1
              rw [hre] at hq
              exact hq
            cases r2 with
            | error e => exact strel_trans h1 h2
            | ok vals =>
              show StRel st (match newFrame st2 (some sc) (dictBind [] ps vals) with
                | (fid, st3) => F body fid st3).2
              cases hnf : newFrame st2 (some sc) (dictBind [] ps vals) with
              | mk fid st3 =>
                have h3 : StRel st2 st3 := by
                  have hq := @newFrame_strel st2 (some sc) (dictBind [] ps vals)
                    (dictBind_nodup ps vals [] (by simp))
                  rw [hnf] at hq
                  exact hq
                exact strel_trans h1 (strel_trans h2 (strel_trans h3 (hF body fid st3)))
      case builtin n =>
        exact strel_trans h1 (applyBuiltin_strel hF n args sc st1)

lemma subsCore_strel {F : AST → Nat → St → RRes} (hF : ∀ a n s, StRel s (F a n s).2)
    (o ix : AST) (sc : Nat) (st : St) : StRel st (subsCore F o ix sc st).2 := by
  unfold subsCore
  cases h : F o sc st with
  | mk r st1 =>
    have h1 : StRel st st1 := by
      have hq := hF o sc st
      rw [h] at hq
      exact hq
    cases r with
    | error e => exact h1
    | ok v =>
      show StRel st (match F ix sc st1 with
        | (Except.error e, st2) => ((Except.error e : Except Error Value), st2)
        | (Except.ok i2, st2) => liftE (getItemV v i2) st2).2
      cases h2 : F ix sc st1 with
      | mk r2 st2 =>
        have h2r : StRel st1 st2 := by
          have hq := hF ix sc st1
          rw [h2] at hq
          exact hq
        cases r2 with
        | error e => exact strel_trans h1 h2r
        | ok i => exact strel_trans h1 h2r

lemma attrCore_strel {F : AST → Nat → St → RRes} (hF : ∀ a n s, StRel s (F a n s).2)
    (o : AST) (fld : String) (sc : Nat) (st : St) : StRel st (attrCore F o fld sc st).2 := by
  unfold attrCore
  cases h : F o sc st with
  | mk r st1 =>
    have h1 : StRel st st1 := by
      have hq := hF o sc st
      rw [h] at hq
      exact hq
    cases r with
    | error e => exact h1
    | ok v => exact h1

lemma sliceCore2_strel {F : AST → Nat → St → RRes} (hF : ∀ a n s, StRel s (F a n s).2)
    (e : Option AST) (sv : Option Value) (sc : Nat) (st : St) :
    StRel st (sliceCore2 F e sv sc st).2 := by
  unfold sliceCore2
  cases e with
  | none => exact strel_refl st
  | some b =>
    show StRel st (match F b sc st with
      | (Except.error er, st1) => ((Except.error er : Except Error Value), st1)
      | (Except.ok v, st1) => (Except.ok (Value.slice sv (some v)), st1)).2
    cases h : F b sc st with
    | mk r st1 =>
      have h1 : StRel st st1 := by
        have hq := hF b sc st
        rw [h] at hq
        exact hq
      cases r with
      | error e => exact h1
      | ok v => exact h1

lemma sliceCore_strel {F : AST → Nat → St → RRes} (hF : ∀ a n s, StRel s (F a n s).2)
    (s e : Option AST) (sc : Nat) (st : St) : StRel st (sliceCore F s e sc st).2 := by
  unfold sliceCore
  cases s with
  | none => exact sliceCore2_strel hF e Option.none sc st
  | some a =>
    show StRel st (match F a sc st with
      | (Except.error er, st1) => ((Except.error er : Except Error Value), st1)
      | (Except.ok v, st1) => sliceCore2 F e (some v) sc st1).2
    cases h : F a sc st with
    | mk r st1 =>
      have h1 : StRel st st1 := by
        have hq := hF a sc st
        rw [h] at hq
        exact hq
      cases r with
      | error e2 => exact h1
      | ok v =>
        show StRel st (sliceCore2 F e (some v) sc st1).2
        exact strel_trans h1 (sliceCore2_strel hF e (some v) sc st1)

lemma joinAfter_strel {F : AST → Nat → St → RRes} (hF : ∀ a n s, StRel s (F a n s).2)
    (mid : Nat) (body : AST) (sc : Nat) (colls : List Value) (st : St) :
    StRel st (joinAfter F mid body sc colls st).2 := by
  unfold joinAfter
  cases iterAll colls with
  | error e => exact strel_refl st
  | ok lists =>
    show StRel st (match runRows F mid body sc (product lists) 0 st with
      | (Except.error e, st1) => ((Except.error e : Except Error Value), st1)
      | (Except.ok vs, st1) => (Except.ok (Value.list vs), st1)).2
    cases hr : runRows F mid body sc (product lists) 0 st with
    | mk r st1 =>
      have h1 : StRel st st1 := by
        have hq := runRows_strel hF mid body sc (product lists) 0 st
        rw [hr] at hq
        exact hq
      cases r with
      | error e => exact h1
      | ok vs => exact h1

lemma joinRun_strel {F : AST → Nat → St → RRes} (hF : ∀ a n s, StRel s (F a n s).2)
    (cands : List AST) (mid : Nat) (body : AST) (sc : Nat) (st : St) :
    StRel st (joinRun F cands mid body sc st).2 := by
  unfold joinRun
  cases h : runExprs F sc cands st with
  | mk r st1 =>
    have h1 : StRel st st1 := by
      have hq := runExprs_strel hF sc cands st
      rw [h] at hq
      exact hq
    cases r with
    | error e => exact h1
    | ok colls => exact strel_trans h1 (joinAfter_strel hF mid body sc colls st1)

/-- The evaluator only adds bindings: any run, successful or raising,
takes a well-formed state to a well-formed state that extends it. -/
lemma run_strel (mt : List (List AST)) : ∀ (fuel : Nat) (node : AST) (sc : Nat) (st : St),
    StRel st (run mt fuel node sc st).2 := by
  intro fuel
  induction fuel with
  | zero => intro node sc st; exact strel_refl st
  | succ k ih =>
    intro node sc st
    rw [run_succ]
    cases node with
    | Module stmts l =>
      simp only [runStep]
      exact runStmts_strel ih sc stmts st
    | Assignment s op e l =>
      simp only [runStep]
      cases isPlaceholder e with
      | some pr =>
        obtain ⟨mid, slot⟩ := pr
        show StRel st (match st.matchState mid with
          | Option.none =>
            ((Except.error (Error.mk "AttributeError" "'Matching' object has no attribute 'row'" Option.none) : Except Error Value), st)
          | some (_, row) =>
            match row.get? slot with
            | Option.none => (Except.error (Error.mk "IndexError" "tuple index out of range" Option.none), st)
            | some v =>
              match setitem st sc s v with
              | Except.error er => (Except.error er, st)
              | Except.ok st1 => (Except.ok Value.none, st1)).2
        cases st.matchState mid with
        | none => exact strel_refl st
        | some pr2 =>
          obtain ⟨i, row⟩ := pr2
          show StRel st (match row.get? slot with
            | Option.none =>
              ((Except.error (Error.mk "IndexError" "tuple index out of range" Option.none) : Except Error Value), st)
            | some v =>
              match setitem st sc s v with
              | Except.error er => (Except.error er, st)
              | Except.ok st1 => (Except.ok Value.none, st1)).2
          cases row.get? slot with
          | none => exact strel_refl st
          | some v =>
            show StRel st (match setitem st sc s v with
              | Except.error er => ((Except.error er : Except Error Value), st)
              | Except.ok st1 => (Except.ok Value.none, st1)).2
            cases hset : setitem st sc s v with
            | error er => exact strel_refl st
            | ok st1 => exact setitem_strel hset
      | none =>
        show StRel st (match run mt k e sc st with
          | (Except.error er, st1) => ((Except.error er : Except Error Value), st1)
          | (Except.ok v, st1) =>
            match setitem st1 sc s v with
            | Except.error er => (Except.error er, st1)
            | Except.ok st2 => (Except.ok Value.none, st2)).2
        cases h : run mt k e sc st with
        | mk r st1 =>
          have h1 : StRel st st1 := by
            have hq := ih e sc st
            rw [h] at hq
            exact hq
          cases r with
          | error e2 => exact h1
          | ok v =>
            show StRel st (match setitem st1 sc s v with
              | Except.error er => ((Except.error er : Except Error Value), st1)
              | Except.ok st2 => (Except.ok Value.none, st2)).2
            cases hset : setitem st1 sc s v with
            | error er => exact h1
            | ok st2 => exact strel_trans h1 (setitem_strel hset)
    | Pattern asgns m tag l =>
      simp only [runStep]
      cases patIdx st m with
      | error er => exact strel_refl st
      | ok idx =>
        cases hnf : newFrame st (some sc) [] with
        | mk fid st1 =>
          have h0 : StRel st st1 := by
            have hq := @newFrame_strel st (some sc) [] (by simp)
            rw [hnf] at hq
            exact hq
          show StRel st (match runStmts (run mt k) fid asgns st1 with
            | (Except.error er, st2) => ((Except.error er : Except Error Value), st2)
            | (Except.ok _, st2) =>
              match st2.findFrame fid with
              | Option.none => (Except.error modelErr, st2)
              | some f => (Except.ok (Value.record tag idx f.symbols), st2)).2
          cases hrs : runStmts (run mt k) fid asgns st1 with
          | mk r st2 =>
            have h1 : StRel st1 st2 := by
              have hq := runStmts_strel ih fid asgns st1
              rw [hrs] at hq
              exact hq
            cases r with
            | error er => exact strel_trans h0 h1
            | ok v =>
              show StRel st (match st2.findFrame fid with
                | Option.none => ((Except.error modelErr : Except Error Value), st2)
                | some f => (Except.ok (Value.record tag idx f.symbols), st2)).2
              cases st2.findFrame fid with
              | none => exact strel_trans h0 h1
              | some f => exact strel_trans h0 h1
    | Join e mid l =>
      simp only [runStep]
      exact joinRun_strel ih (mt.getD mid []) mid e sc st
    | Function ps body l => exact strel_refl st
    | Block stmts e l =>
      simp only [runStep]
      cases hnf : newFrame st (some sc) [] with
      | mk fid st1 =>
        have h0 : StRel st st1 := by
          have hq := @newFrame_strel st (some sc) [] (by simp)
          rw [hnf] at hq
          exact hq
        show StRel st (match runStmts (run mt k) fid stmts st1 with
          | (Except.error er, st2) => ((Except.error er : Except Error Value), st2)
          | (Except.ok _, st2) => run mt k e fid st2).2
        cases hrs : runStmts (run mt k) fid stmts st1 with
        | mk r st2 =>
          have h1 : StRel st1 st2 := by
            have hq := runStmts_strel ih fid stmts st1
            rw [hrs] at hq
            exact hq
          cases r with
          | error er => exact strel_trans h0 h1
          | ok v => exact strel_trans h0 (strel_trans h1 (ih e fid st2))
    | Call f args line =>
      simp only [runStep]
      rw [wrapRes_snd]
      exact callCore_strel ih f args sc st
    | Subscript o ix line =>
      simp only [runStep]
      rw [wrapRes_snd]
      exact subsCore_strel ih o ix sc st
    | Attribute o fld line =>
      simp only [runStep]
      rw [wrapRes_snd]
      exact attrCore_strel ih o fld sc st
    | Slice s e l =>
      simp only [runStep]
      exact sliceCore_strel ih s e sc st
    | Symbol n line =>
      simp only [runStep]
      rw [wrapRes_snd]
      exact strel_refl st
    | Literal v l => exact strel_refl st
    | Placeholder mid slot => exact strel_refl st

lemma runStmts_append (F : AST → Nat → St → RRes) (sc : Nat) :
    ∀ (pre rest : List AST) (st : St),
      runStmts F sc (pre ++ rest) st =
        match runStmts F sc pre st with
        | (.error e, st1) => (.error e, st1)
        | (.ok _, st1) => runStmts F sc rest st1 := by
  intro pre
  induction pre with
  | nil => intro rest st; rfl
  | cons x xs ih =>
    intro rest st
    simp only [List.cons_append, runStmts]
    cases h : F x sc st with
    | mk r st1 =>
      cases r with
      | error e => rfl
      | ok v => exact ih rest st1

/-- C8: if a Module's statements are evaluated left to right and one
fails, the whole evaluation returns that statement's error together
with the state it left, so all bindings committed by the earlier
statements remain (and whatever the failing statement already bound
remains too) — no rollback, no local recovery. -/
theorem rejig_C8_no_rollback :
    ∀ (mt : List (List AST)) (fuel : Nat) (pre : List AST) (s : AST) (rest : List AST)
      (lm : Option Nat) (sc : Nat) (st : St) (u : Value) (stMid : St) (e : Error) (stErr : St),
      runStmts (run mt fuel) sc pre st = (.ok u, stMid) →
      run mt fuel s sc stMid = (.error e, stErr) →
      run mt (fuel + 1) (.Module (pre ++ s :: rest) lm) sc st = (.error e, stErr) ∧
      (WFSt stMid → Extends stMid stErr) ∧
      (WFSt st → Extends st stMid) := by
  intro mt fuel pre s rest lm sc st u stMid e stErr h1 h2
  refine ⟨?_, ?_, ?_⟩
  · rw [run_succ]
    show runStmts (run mt fuel) sc (pre ++ s :: rest) st = _
    rw [runStmts_append, h1]
    show runStmts (run mt fuel) sc (s :: rest) stMid = _
    simp only [runStmts]
    rw [h2]
  · intro hWF
    have hq := run_strel mt fuel s sc stMid
    rw [h2] at hq
    exact (hq hWF).2
  · intro hWF
    have hq := runStmts_strel (fun a n s2 => run_strel mt fuel a n s2) sc pre st
    rw [h1] at hq
    exact (hq hWF).2

/-- Witness for C8: a = 1 commits, then an unbound symbol raises; the
module returns the wrapped error with a still bound. -/
theorem rejig_C8_witness :
    run [] 4 (.Module [.Assignment "a" "=" (.Literal (.int 1) (some 1)) (some 1),
                       .Symbol "zz" (some 2)] (some 1)) 1 (initSt []) =
      (.error (wrap (some 2) (.mk "KeyError" "'zz'" Option.none)),
       ⟨[(1, ⟨some 0, [("a", .int 1)]⟩), (0, builtinsFrame)], 2, []⟩) ∧
    (WFSt ⟨[(1, ⟨some 0, [("a", .int 1)]⟩), (0, builtinsFrame)], 2, []⟩ →
      Extends ⟨[(1, ⟨some 0, [("a", .int 1)]⟩), (0, builtinsFrame)], 2, []⟩
              ⟨[(1, ⟨some 0, [("a", .int 1)]⟩), (0, builtinsFrame)], 2, []⟩) := by
  have happ := rejig_C8_no_rollback [] 3
    [.Assignment "a" "=" (.Literal (.int 1) (some 1)) (some 1)]
    (.Symbol "zz" (some 2)) [] (some 1) 1 (initSt []) Value.none
    ⟨[(1, ⟨some 0, [("a", .int 1)]⟩), (0, builtinsFrame)], 2, []⟩
    (wrap (some 2) (.mk "KeyError" "'zz'" Option.none))
    ⟨[(1, ⟨some 0, [("a", .int 1)]⟩), (0, builtinsFrame)], 2, []⟩
    rfl rfl
  exact ⟨happ.1, happ.2.1⟩

/-- C10: during Pattern evaluation the record under construction is
the fresh child scope's own symbol dict, so fields obey the same
single-assignment rule as scopes: a second assignment to an
already-bound field raises the redefinition error at that point, and
every successfully completed Record has pairwise distinct field
names. -/
theorem rejig_C10_record_fields :
    (∀ (mt : List (List AST)) (fuel : Nat) (s op2 : String) (e2 : AST) (l2 : Option Nat)
        (stmts2 : List AST) (fid : Nat) (stB : St) (v1 v2 : Value) (stC : St),
        WFSt stB →
        boundIn stB fid s v1 →
        isPlaceholder e2 = Option.none →
        run mt fuel e2 fid stB = (.ok v2, stC) →
        runStmts (run mt (fuel + 1)) fid (.Assignment s op2 e2 l2 :: stmts2) stB =
          (.error (redefErr s), stC)) ∧
    (∀ (mt : List (List AST)) (fuel : Nat) (asgns : List AST) (m : Option Nat) (tag : Nat)
        (lp : Option Nat) (sc : Nat) (st : St) (v : Value) (st' : St),
        WFSt st →
        run mt (fuel + 1) (.Pattern asgns m tag lp) sc st = (.ok v, st') →
        ∃ idx fields, v = .record tag idx fields ∧ (fields.map Prod.fst).Nodup) := by
  constructor
  · intro mt fuel s op2 e2 l2 stmts2 fid stB v1 v2 stC hWF hb hnp hrun
    have hrel : StRel stB stC := by
      have hq := run_strel mt fuel e2 fid stB
      rw [hrun] at hq
      exact hq
    obtain ⟨f, hf, hd⟩ := (hrel hWF).2 fid s v1 hb
    have hset : setitem stC fid s v2 = .error (redefErr s) := by
      simp [setitem, hf, hd]
    have hasg : run mt (fuel + 1) (.Assignment s op2 e2 l2) fid stB =
        (.error (redefErr s), stC) := by
      rw [run_succ]
      show (match isPlaceholder e2 with
            | some (mid, slot) =>
              match stB.matchState mid with
              | Option.none =>
                ((Except.error (Error.mk "AttributeError" "'Matching' object has no attribute 'row'" Option.none) : Except Error Value), stB)
              | some (_, row) =>
                match row.get? slot with
                | Option.none => (Except.error (Error.mk "IndexError" "tuple index out of range" Option.none), stB)
                | some v =>
                  match setitem stB fid s v with
                  | Except.error er => (Except.error er, stB)
                  | Except.ok st1 => (Except.ok Value.none, st1)
            | Option.none =>
              match run mt fuel e2 fid stB with
              | (Except.error er, st1) => (Except.error er, st1)
              | (Except.ok v, st1) =>
                match setitem st1 fid s v with
                | Except.error er => (Except.error er, st1)
                | Except.ok st2 => (Except.ok Value.none, st2)) = _
      rw [hnp, hrun]
      show (match setitem stC fid s v2 with
            | Except.error er => ((Except.error er : Except Error Value), stC)
            | Except.ok st2 => (Except.ok Value.none, st2)) = _
      rw [hset]
    simp only [runStmts, hasg]
  · intro mt fuel asgns m tag lp sc st v st' hWF hrun
    rw [run_succ] at hrun
    replace hrun : (match patIdx st m with
                    | Except.error er => ((Except.error er : Except Error Value), st)
                    | Except.ok idx =>
                      match newFrame st (some sc) [] with
                      | (fid, st1) =>
                        match runStmts (run mt fuel) fid asgns st1 with
                        | (Except.error er, st2) => (Except.error er, st2)
                        | (Except.ok _, st2) =>
                          match st2.findFrame fid with
                          | Option.none => (Except.error modelErr, st2)
                          | some f => (Except.ok (Value.record tag idx f.symbols), st2)) = (.ok v, st') := hrun
    cases hpi : patIdx st m with
    | error er =>
      rw [hpi] at hrun
      replace hrun : ((Except.error er : Except Error Value), st) = (.ok v, st') := hrun
      injection hrun with ha hb2
      exact Except.noConfusion ha
    | ok idx =>
      rw [hpi] at hrun
      cases hnf : newFrame st (some sc) [] with
      | mk fid st1 =>
        rw [hnf] at hrun
        replace hrun : (match runStmts (run mt fuel) fid asgns st1 with
                        | (Except.error er, st2) => ((Except.error er : Except Error Value), st2)
                        | (Except.ok _, st2) =>
                          match st2.findFrame fid with
                          | Option.none => (Except.error modelErr, st2)
                          | some f => (Except.ok (Value.record tag idx f.symbols), st2)) = (.ok v, st') := hrun
        cases hrs : runStmts (run mt fuel) fid asgns st1 with
        | mk r st2 =>
          rw [hrs] at hrun
          cases r with
          | error er =>
            replace hrun : ((Except.error er : Except Error Value), st2) = (.ok v, st') := hrun
            injection hrun with ha hb2
            exact Except.noConfusion ha
          | ok u =>
            replace hrun : (match st2.findFrame fid with
                            | Option.none => ((Except.error modelErr : Except Error Value), st2)
                            | some f => (Except.ok (Value.record tag idx f.symbols), st2)) = (.ok v, st') := hrun
            cases hff : st2.findFrame fid with
            | none =>
              rw [hff] at hrun
              replace hrun : ((Except.error modelErr : Except Error Value), st2) = (.ok v, st') := hrun
              injection hrun with ha hb2
              exact Except.noConfusion ha
            | some f =>
              rw [hff] at hrun
              replace hrun : ((Except.ok (Value.record tag idx f.symbols) : Except Error Value), st2) = (.ok v, st') := hrun
              injection hrun with ha hb2
              injection ha with ha
              refine ⟨idx, f.symbols, ha.symm, ?_⟩
              have hrel0 : StRel st st1 := by
                have hq := @newFrame_strel st (some sc) [] (by simp)
                rw [hnf] at hq
                exact hq
              have hrel1 : StRel st1 st2 := by
                have hq := runStmts_strel (fun a n s2 => run_strel mt fuel a n s2) fid asgns st1
                rw [hrs] at hq
                exact hq
              have hWF2 : WFSt st2 := ((strel_trans hrel0 hrel1) hWF).1
              exact hWF2.2 (fid, f) (assocFind_mem hff)

/-- Witness for C10: rebinding field q in a pattern frame fails with
the redefinition error; a completed one-field record has Nodup
fields. -/
theorem rejig_C10_witness :
    runStmts (run [] 3) 2 [.Assignment "q" "=" (.Literal (.int 5) Option.none) Option.none]
        ⟨[(2, ⟨some 1, [("q", .int 4)]⟩), (1, ⟨some 0, []⟩), (0, builtinsFrame)], 3, []⟩ =
      (.error (redefErr "q"),
       ⟨[(2, ⟨some 1, [("q", .int 4)]⟩), (1, ⟨some 0, []⟩), (0, builtinsFrame)], 3, []⟩) ∧
    (∃ idx fields, (Value.record 9 Option.none [("a", Value.int 1)] : Value) = .record 9 idx fields ∧
      (fields.map Prod.fst).Nodup) := by
  constructor
  · exact rejig_C10_record_fields.1 [] 2 "q" "=" (.Literal (.int 5) Option.none) Option.none []
      2 ⟨[(2, ⟨some 1, [("q", .int 4)]⟩), (1, ⟨some 0, []⟩), (0, builtinsFrame)], 3, []⟩
      (.int 4) (.int 5)
      ⟨[(2, ⟨some 1, [("q", .int 4)]⟩), (1, ⟨some 0, []⟩), (0, builtinsFrame)], 3, []⟩
      (by unfold WFSt; exact ⟨by decide, by decide⟩)
      ⟨⟨some 1, [("q", .int 4)]⟩, rfl, rfl⟩ rfl rfl
  · exact rejig_C10_record_fields.2 [] 2
      [.Assignment "a" "=" (.Literal (.int 1) Option.none) Option.none]
      Option.none 9 Option.none 1 (initSt []) (.record 9 Option.none [("a", .int 1)])
      ⟨(2, ⟨some 1, [("a", .int 1)]⟩) :: (initSt []).store, 3, []⟩
      (by unfold WFSt; exact ⟨by decide, by decide⟩) rfl

mutual

/-- The identity tags of every Pattern node occurring in an AST. -/
def tagsIn : AST → List Nat
  | .Module stmts _ => tagsList stmts
  | .Assignment _ _ e _ => tagsIn e
  | .Pattern asgns _ tag _ => tag :: tagsList asgns
  | .Join e _ _ => tagsIn e
  | .Function _ b _ => tagsIn b
  | .Block stmts e _ => tagsList stmts ++ tagsIn e
  | .Call f args _ => tagsIn f ++ tagsList args
  | .Subscript o i _ => tagsIn o ++ tagsIn i
  | .Attribute o _ _ => tagsIn o
  | .Slice s e _ => optTags s ++ optTags e
  | .Symbol _ _ => []
  | .Literal _ _ => []
  | .Placeholder _ _ => []

def tagsList : List AST → List Nat
  | [] => []
  | a :: rest => tagsIn a ++ tagsList rest

def optTags : Option AST → List Nat
  | Option.none => []
  | some a => tagsIn a

end

def tagsRes : TRes → List Nat
  | .ast a => tagsIn a
  | .names _ => []
  | .astList xs => tagsList xs

def resTagsL : List TRes → List Nat
  | [] => []
  | r :: rest => tagsRes r ++ resTagsL rest

/-- The identity tags of every Pattern node sitting inside the
candidate table. -/
def tagsCands : List (List AST) → List Nat
  | [] => []
  | l :: ls => tagsList l ++ tagsCands ls

def candTags (st : BState) : List Nat := tagsCands st.cands

/-- Tags ts were minted between st and st': they are pairwise distinct
and lie in the interval [st.nextTag, st'.nextTag). -/
def MintedM (st st' : BState) (ts : Multiset Nat) : Prop :=
  st.nextTag ≤ st'.nextTag ∧ ts.Nodup ∧ ∀ t ∈ ts, st.nextTag ≤ t ∧ t < st'.nextTag

lemma minted_trans {a b c : BState} {ts1 ts2 : Multiset Nat}
    (h1 : MintedM a b ts1) (h2 : MintedM b c ts2) : MintedM a c (ts1 + ts2) := by
  refine ⟨le_trans h1.1 h2.1, ?_, ?_⟩
  · rw [Multiset.nodup_add]
    refine ⟨h1.2.1, h2.2.1, Multiset.disjoint_left.mpr ?_⟩
    intro t ht1 ht2
    have hx := (h1.2.2 t ht1).2
    have hy := (h2.2.2 t ht2).1
    omega
  · intro t ht
    rcases Multiset.mem_add.mp ht with h | h
    · have := h1.2.2 t h
      exact ⟨this.1, lt_of_lt_of_le this.2 h2.1⟩
    · have := h2.2.2 t h
      exact ⟨le_trans h1.1 this.1, this.2⟩

lemma minted_zero (st : BState) : MintedM st st 0 :=
  ⟨le_refl _, Multiset.nodup_zero, fun t ht => absurd ht (Multiset.not_mem_zero t)⟩

lemma minted_eq {a b : BState} {ts ts' : Multiset Nat} (h : MintedM a b ts) (he : ts = ts') :
    MintedM a b ts' := he ▸ h

lemma tagsList_append (x y : List AST) : tagsList (x ++ y) = tagsList x ++ tagsList y := by
  induction x with
  | nil => rfl
  | cons a rest ih => simp [tagsList, ih]

lemma tagsCands_append (x y : List (List AST)) :
    tagsCands (x ++ y) = tagsCands x ++ tagsCands y := by
  induction x with
  | nil => rfl
  | cons l ls ih => simp [tagsCands, ih]

lemma tagsCands_set_append (cands : List (List AST)) (mid : Nat) (a : AST)
    (h : mid < cands.length) :
    (tagsCands (cands.set mid (cands.getD mid [] ++ [a])) : Multiset Nat) =
      (tagsCands cands : Multiset Nat) + (tagsIn a : Multiset Nat) := by
  induction cands generalizing mid with
  | nil => simp at h
  | cons l ls ih =>
    cases mid with
    | zero =>
      show (tagsCands ((l ++ [a]) :: ls) : Multiset Nat) = _
      show ((tagsList (l ++ [a]) ++ tagsCands ls : List Nat) : Multiset Nat) = _
      rw [tagsList_append]
      show ((tagsList l ++ (tagsIn a ++ []) ++ tagsCands ls : List Nat) : Multiset Nat) = _
      simp only [List.append_nil]
      rw [show ((tagsList l ++ tagsIn a ++ tagsCands ls : List Nat) : Multiset Nat) =
            (tagsList l : Multiset Nat) + (tagsIn a : Multiset Nat) + (tagsCands ls : Multiset Nat) from by
        simp]
      rw [show (tagsCands (l :: ls) : Multiset Nat) =
            (tagsList l : Multiset Nat) + (tagsCands ls : Multiset Nat) from by
        show ((tagsList l ++ tagsCands ls : List Nat) : Multiset Nat) = _
        simp]
      abel
    | succ k =>
      have hk : k < ls.length := by simpa using h
      show (tagsCands (l :: ls.set k (ls.getD k [] ++ [a])) : Multiset Nat) = _
      show ((tagsList l ++ tagsCands (ls.set k (ls.getD k [] ++ [a])) : List Nat) : Multiset Nat) = _
      rw [show ((tagsList l ++ tagsCands (ls.set k (ls.getD k [] ++ [a])) : List Nat) : Multiset Nat) =
            (tagsList l : Multiset Nat) + (tagsCands (ls.set k (ls.getD k [] ++ [a])) : Multiset Nat) from by
        simp]
      rw [ih k hk]
      rw [show (tagsCands (l :: ls) : Multiset Nat) =
            (tagsList l : Multiset Nat) + (tagsCands ls : Multiset Nat) from by
        show ((tagsList l ++ tagsCands ls : List Nat) : Multiset Nat) = _
        simp]
      abel

lemma asAST_ok {r : TRes} {a : AST} (h : r.asAST = .ok a) : r = .ast a := by
  cases r with
  | ast a' =>
    simp only [TRes.asAST, Except.ok.injEq] at h
    rw [h]
  | names ns => simp [TRes.asAST] at h
  | astList xs => simp [TRes.asAST] at h

lemma asNames_ok {r : TRes} {ns : List String} (h : r.asNames = .ok ns) : r = .names ns := by
  cases r with
  | ast a => simp [TRes.asNames] at h
  | names ns' =>
    simp only [TRes.asNames, Except.ok.injEq] at h
    rw [h]
  | astList xs => simp [TRes.asNames] at h

lemma asList_ok {r : TRes} {xs : List AST} (h : r.asList = .ok xs) : r = .astList xs := by
  cases r with
  | ast a => simp [TRes.asList] at h
  | names ns => simp [TRes.asList] at h
  | astList xs' =>
    simp only [TRes.asList, Except.ok.injEq] at h
    rw [h]

lemma allASTs_tags : ∀ {rs : List TRes} {xs : List AST}, allASTs rs = .ok xs →
    resTagsL rs = tagsList xs := by
  intro rs
  induction rs with
  | nil =>
    intro xs h
    replace h : (Except.ok ([] : List AST) : Except Error (List AST)) = .ok xs := h
    injection h with h
    rw [← h]
    rfl
  | cons r rest ih =>
    intro xs h
    simp only [allASTs] at h
    cases ha : r.asAST with
    | error e => rw [ha] at h; exact absurd h (by simp)
    | ok a =>
      rw [ha] at h
      replace h : (match allASTs rest with
                   | Except.error e => (Except.error e : Except Error (List AST))
                   | Except.ok xs2 => Except.ok (a :: xs2)) = .ok xs := h
      cases hr : allASTs rest with
      | error e => rw [hr] at h; exact absurd h (by simp)
      | ok xs2 =>
        rw [hr] at h
        replace h : (Except.ok (a :: xs2) : Except Error (List AST)) = .ok xs := h
        injection h with h
        rw [← h]
        have hra : r = .ast a := asAST_ok ha
        show tagsRes r ++ resTagsL rest = tagsIn a ++ tagsList xs2
        rw [hra, ih hr]
        rfl

/-- One toast call mapped st to st' and produced result tags T: the
candidate table grew by exactly some multiset cs, and T + cs are the
tags minted during the call — fresh and pairwise distinct. -/
def Produced (st st' : BState) (T : Multiset Nat) : Prop :=
  ∃ cs : Multiset Nat, (candTags st' : Multiset Nat) = (candTags st : Multiset Nat) + cs ∧
    MintedM st st' (T + cs)

lemma produced_refl (st : BState) : Produced st st 0 :=
  ⟨0, by simp, by simpa using minted_zero st⟩

lemma produced_congr {a b : BState} {T T' : Multiset Nat} (h : Produced a b T) (he : T = T') :
    Produced a b T' := he ▸ h

lemma produced_comp {a b c : BState} {T1 T2 : Multiset Nat}
    (h1 : Produced a b T1) (h2 : Produced b c T2) : Produced a c (T1 + T2) := by
  obtain ⟨cs1, he1, hm1⟩ := h1
  obtain ⟨cs2, he2, hm2⟩ := h2
  refine ⟨cs1 + cs2, ?_, ?_⟩
  · rw [he2, he1]
    abel
  · exact minted_eq (minted_trans hm1 hm2) (by abel)

lemma produced_of_eq {st st' : BState} (hc : (candTags st' : Multiset Nat) = candTags st)
    (hn : st.nextTag = st'.nextTag) : Produced st st' 0 := by
  refine ⟨0, by rw [hc]; simp, ?_, ?_, ?_⟩
  · omega
  · simp
  · intro t ht
    simp at ht

lemma minted_retarget {a b c : BState} {X : Multiset Nat} (h : MintedM a b X)
    (he : b.nextTag = c.nextTag) : MintedM a c X :=
  ⟨he ▸ h.1, h.2.1, fun t ht => ⟨(h.2.2 t ht).1, he ▸ (h.2.2 t ht).2⟩⟩

lemma produced_mint (st : BState) :
    Produced st { st with nextTag := st.nextTag + 1 } {st.nextTag} := by
  refine ⟨0, by simp [candTags], ?_, ?_, ?_⟩
  · show st.nextTag ≤ st.nextTag + 1
    omega
  · simp
  · intro t ht
    simp at ht
    subst ht
    show st.nextTag ≤ st.nextTag ∧ st.nextTag < st.nextTag + 1
    omega

lemma tags_getLast : ∀ {items : List AST} {e0 : AST}, items.getLast? = some e0 →
    (tagsList items : Multiset Nat) = (tagsList items.dropLast : Multiset Nat) + (tagsIn e0 : Multiset Nat) := by
  intro items
  induction items with
  | nil => intro e0 h; simp at h
  | cons a rest ih =>
    intro e0 h
    cases rest with
    | nil =>
      have ha : a = e0 := by simpa using h
      subst ha
      show ((tagsIn a ++ tagsList [] : List Nat) : Multiset Nat) = _
      simp [tagsList]
    | cons b rest2 =>
      have h2 : (b :: rest2).getLast? = some e0 := by
        rw [← h]
        rfl
      show ((tagsIn a ++ tagsList (b :: rest2) : List Nat) : Multiset Nat) = _
      have hd : (a :: b :: rest2).dropLast = a :: (b :: rest2).dropLast := rfl
      rw [hd]
      show _ = ((tagsIn a ++ tagsList ((b :: rest2).dropLast) : List Nat) : Multiset Nat) + _
      rw [show ((tagsIn a ++ tagsList (b :: rest2) : List Nat) : Multiset Nat) =
            (tagsIn a : Multiset Nat) + (tagsList (b :: rest2) : Multiset Nat) from by simp]
      rw [show ((tagsIn a ++ tagsList ((b :: rest2).dropLast) : List Nat) : Multiset Nat) =
            (tagsIn a : Multiset Nat) + (tagsList ((b :: rest2).dropLast) : Multiset Nat) from by simp]
      rw [ih h2]
      abel

lemma toastEach_fresh {F : PTree → Option Nat → BState → TB}
    (hF : ∀ pt m st r st', F pt m st = .ok (r, st') → Produced st st' (tagsRes r))
    (m : Option Nat) :
    ∀ (l : List PTree) (st : BState) (rs : List TRes) (st' : BState),
      toastEach F m l st = .ok (rs, st') → Produced st st' (resTagsL rs) := by
  intro l
  induction l with
  | nil =>
    intro st rs st' h
    replace h : (Except.ok (([] : List TRes), st) : Except Error (List TRes × BState)) = .ok (rs, st') := h
    injection h with h
    rw [Prod.mk.injEq] at h
    obtain ⟨h1, h2⟩ := h
    subst h1
    subst h2
    exact produced_congr (produced_refl st) (by simp [resTagsL])
  | cons x xs ih2 =>
    intro st rs st' h
    simp only [toastEach] at h
    split at h
    · exact absurd h (by simp)
    · rename_i r0 st1 heq
      split at h
      · exact absurd h (by simp)
      · rename_i rs2 st2 heq2
        injection h with h
        rw [Prod.mk.injEq] at h
        obtain ⟨h1, h2⟩ := h
        subst h1
        subst h2
        have p1 := hF x m st r0 st1 heq
        have p2 := ih2 st1 rs2 st2 heq2
        exact produced_congr (produced_comp p1 p2) (by simp [resTagsL])

/-- Toast mints each Pattern identity tag from the strictly increasing
allocator: the tags of the built AST together with the tags newly
registered in the candidate table are pairwise distinct and fresh. -/
lemma toast_fresh : ∀ (fuel : Nat) (pt : PTree) (m : Option Nat) (st : BState) (r : TRes) (st' : BState),
    toast fuel pt m st = .ok (r, st') → Produced st st' (tagsRes r) := by
  intro fuel
  induction fuel with
  | zero =>
    intro pt m st r st' h
    exact absurd h (by simp [toast])
  | succ k ih =>
    intro pt m st r st' h
    rw [toast_succ] at h
    cases pt with
    | token t l => exact absurd h (by simp [toastStep])
    | node data children =>
      cases hk : kindOf data with
      | kPass =>
        simp only [toastStep, hk] at h
        split at h
        · rename_i c rest
          exact ih c m st r st' h
        · simp at h
      | kStart =>
        simp only [toastStep, hk] at h
        split at h
        · simp at h
        · rename_i rs st1 heq
          split at h
          · simp at h
          · rename_i stmts hall
            injection h with h
            rw [Prod.mk.injEq] at h
            obtain ⟨h1, h2⟩ := h
            subst h1
            subst h2
            exact produced_congr (toastEach_fresh ih m _ st rs st1 heq)
              (by rw [allASTs_tags hall]; simp [tagsRes, tagsIn])
      | kFuncassign =>
        simp only [toastStep, hk] at h
        split at h
        · simp at h
        · rename_i c0 rest
          split at h
          · simp at h
          · rename_i rb st1 heq
            split at h
            · simp at h
            · rename_i b hb
              injection h with h
              rw [Prod.mk.injEq] at h
              obtain ⟨h1, h2⟩ := h
              subst h1
              subst h2
              exact produced_congr (ih _ m st rb st1 heq)
                (by rw [asAST_ok hb]; simp [tagsRes, tagsIn])
      | kAssign =>
        simp only [toastStep, hk] at h
        split at h
        · rename_i c0 c1 rest
          split at h
          · simp at h
          · rename_i rb st1 heq
            split at h
            · simp at h
            · rename_i b hb
              injection h with h
              rw [Prod.mk.injEq] at h
              obtain ⟨h1, h2⟩ := h
              subst h1
              subst h2
              exact produced_congr (ih c1 m st rb st1 heq)
                (by rw [asAST_ok hb]; simp [tagsRes, tagsIn])
        · simp at h
      | kSymfam op =>
        simp only [toastStep, hk] at h
        split at h
        · simp at h
        · rename_i mid
          split at h
          · rename_i c0 c1 rest
            split at h
            · simp at h
            · rename_i rb st1 heq
              split at h
              · simp at h
              · rename_i a ha
                split at h
                · rename_i hlt
                  injection h with h
                  rw [Prod.mk.injEq] at h
                  obtain ⟨h1, h2⟩ := h
                  subst h1
                  subst h2
                  have p1 : Produced st st1 (tagsIn a : Multiset Nat) :=
                    produced_congr (ih c1 (some mid) st rb st1 heq)
                      (by rw [asAST_ok ha]; simp [tagsRes])
                  obtain ⟨cs1, he1, hm1⟩ := p1
                  refine ⟨(tagsIn a : Multiset Nat) + cs1, ?_, ?_⟩
                  · show (tagsCands (st1.cands.set mid (st1.cands.getD mid [] ++ [a])) : Multiset Nat) = _
                    rw [tagsCands_set_append st1.cands mid a hlt]
                    rw [show (tagsCands st1.cands : Multiset Nat) = (candTags st1 : Multiset Nat) from rfl]
                    rw [he1]
                    abel
                  · refine minted_eq (minted_retarget hm1 rfl) ?_
                    simp [tagsRes, tagsIn]
                · simp at h
          · simp at h
      | kPattern =>
        simp only [toastStep, hk] at h
        split at h
        · simp at h
        · rename_i rs st1 heq
          split at h
          · simp at h
          · rename_i asgns hall
            injection h with h
            rw [Prod.mk.injEq] at h
            obtain ⟨h1, h2⟩ := h
            subst h1
            subst h2
            have p1 : Produced st st1 (tagsList asgns : Multiset Nat) :=
              produced_congr (toastEach_fresh ih m _ st rs st1 heq)
                (by rw [allASTs_tags hall])
            have p2 := produced_mint st1
            refine produced_congr (produced_comp p1 p2) ?_
            show (tagsList asgns : Multiset Nat) + {st1.nextTag} =
              (tagsRes (.ast (.Pattern asgns m st1.nextTag (firstLine (asgns.map lineOf)))) : Multiset Nat)
            rw [show tagsRes (.ast (.Pattern asgns m st1.nextTag (firstLine (asgns.map lineOf)))) =
                  st1.nextTag :: tagsList asgns from by simp [tagsRes, tagsIn]]
            rw [show ((st1.nextTag :: tagsList asgns : List Nat) : Multiset Nat) =
                  st1.nextTag ::ₘ (tagsList asgns : Multiset Nat) from rfl]
            rw [← Multiset.singleton_add]
            abel
      | kJoin =>
        simp only [toastStep, hk] at h
        split at h
        · rename_i c0 rest
          split at h
          · simp at h
          · rename_i r1 st1 heq
            split at h
            · simp at h
            · rename_i e0 hasa
              injection h with h
              rw [Prod.mk.injEq] at h
              obtain ⟨h1, h2⟩ := h
              subst h1
              subst h2
              have p0 : Produced st { st with cands := st.cands ++ [[]] } 0 :=
                produced_of_eq (by
                  show (tagsCands (st.cands ++ [[]]) : Multiset Nat) = _
                  rw [tagsCands_append]
                  simp [tagsCands, tagsList, candTags]) rfl
              have p1 : Produced { st with cands := st.cands ++ [[]] } st1 (tagsIn e0 : Multiset Nat) :=
                produced_congr (ih c0 (some st.cands.length) _ r1 st1 heq)
                  (by rw [asAST_ok hasa]; simp [tagsRes])
              exact produced_congr (produced_comp p0 p1) (by simp [tagsRes, tagsIn])
        · simp at h
      | kFunction =>
        simp only [toastStep, hk] at h
        split at h
        · rename_i c0 c1 rest
          split at h
          · simp at h
          · rename_i r0 st1 heq0
            split at h
            · simp at h
            · rename_i ns hns
              split at h
              · simp at h
              · rename_i r1 st2 heq1
                split at h
                · simp at h
                · rename_i b hb
                  injection h with h
                  rw [Prod.mk.injEq] at h
                  obtain ⟨h1, h2⟩ := h
                  subst h1
                  subst h2
                  have p0 : Produced st st1 0 :=
                    produced_congr (ih c0 m st r0 st1 heq0)
                      (by rw [asNames_ok hns]; simp [tagsRes])
                  have p1 : Produced st1 st2 (tagsIn b : Multiset Nat) :=
                    produced_congr (ih c1 Option.none st1 r1 st2 heq1)
                      (by rw [asAST_ok hb]; simp [tagsRes])
                  exact produced_congr (produced_comp p0 p1) (by simp [tagsRes, tagsIn])
        · simp at h
      | kParamlist =>
        simp only [toastStep, hk] at h
        injection h with h
        rw [Prod.mk.injEq] at h
        obtain ⟨h1, h2⟩ := h
        subst h1
        subst h2
        exact produced_congr (produced_refl st) (by simp [tagsRes])
      | kBlock =>
        simp only [toastStep, hk] at h
        split at h
        · simp at h
        · rename_i rs st1 heq
          split at h
          · rename_i r0
            injection h with h
            rw [Prod.mk.injEq] at h
            obtain ⟨h1, h2⟩ := h
            subst h1
            subst h2
            exact produced_congr (toastEach_fresh ih m _ st _ st1 heq) (by simp [resTagsL])
          · split at h
            · simp at h
            · rename_i items hall
              split at h
              · rename_i e0 hlast
                injection h with h
                rw [Prod.mk.injEq] at h
                obtain ⟨h1, h2⟩ := h
                subst h1
                subst h2
                refine produced_congr (toastEach_fresh ih m _ st rs st1 heq) ?_
                rw [allASTs_tags hall, tags_getLast hlast]
                rw [show tagsRes (.ast (.Block items.dropLast e0 (firstLine (items.map lineOf)))) =
                      tagsList items.dropLast ++ tagsIn e0 from by simp [tagsRes, tagsIn]]
                simp
              · simp at h
      | kCall =>
        simp only [toastStep, hk] at h
        split at h
        · rename_i c0 c1 rest
          split at h
          · simp at h
          · rename_i r0 st1 heq0
            split at h
            · simp at h
            · rename_i f0 hf0
              split at h
              · simp at h
              · rename_i r1 st2 heq1
                split at h
                · simp at h
                · rename_i args hargs
                  injection h with h
                  rw [Prod.mk.injEq] at h
                  obtain ⟨h1, h2⟩ := h
                  subst h1
                  subst h2
                  have p0 : Produced st st1 (tagsIn f0 : Multiset Nat) :=
                    produced_congr (ih c0 m st r0 st1 heq0)
                      (by rw [asAST_ok hf0]; simp [tagsRes])
                  have p1 : Produced st1 st2 (tagsList args : Multiset Nat) :=
                    produced_congr (ih c1 m st1 r1 st2 heq1)
                      (by rw [asList_ok hargs]; simp [tagsRes])
                  refine produced_congr (produced_comp p0 p1) ?_
                  rw [show tagsRes (.ast (.Call f0 args (firstLine (lineOf f0 :: args.map lineOf)))) =
                        tagsIn f0 ++ tagsList args from by simp [tagsRes, tagsIn]]
                  simp
        · simp at h
      | kArglist =>
        simp only [toastStep, hk] at h
        split at h
        · simp at h
        · rename_i rs st1 heq
          split at h
          · simp at h
          · rename_i xs hall
            injection h with h
            rw [Prod.mk.injEq] at h
            obtain ⟨h1, h2⟩ := h
            subst h1
            subst h2
            exact produced_congr (toastEach_fresh ih m _ st rs st1 heq)
              (by rw [allASTs_tags hall]; simp [tagsRes])
      | kSubscript =>
        simp only [toastStep, hk] at h
        split at h
        · rename_i c0 c1 rest
          split at h
          · simp at h
          · rename_i r0 st1 heq0
            split at h
            · simp at h
            · rename_i o0 ho0
              split at h
              · simp at h
              · rename_i r1 st2 heq1
                split at h
                · simp at h
                · rename_i ix hix
                  injection h with h
                  rw [Prod.mk.injEq] at h
                  obtain ⟨h1, h2⟩ := h
                  subst h1
                  subst h2
                  have p0 : Produced st st1 (tagsIn o0 : Multiset Nat) :=
                    produced_congr (ih c0 m st r0 st1 heq0)
                      (by rw [asAST_ok ho0]; simp [tagsRes])
                  have p1 : Produced st1 st2 (tagsIn ix : Multiset Nat) :=
                    produced_congr (ih c1 m st1 r1 st2 heq1)
                      (by rw [asAST_ok hix]; simp [tagsRes])
                  refine produced_congr (produced_comp p0 p1) ?_
                  rw [show tagsRes (.ast (.Subscript o0 ix (firstLine [lineOf o0, lineOf ix]))) =
                        tagsIn o0 ++ tagsIn ix from by simp [tagsRes, tagsIn]]
                  simp
        · simp at h
      | kAttribute =>
        simp only [toastStep, hk] at h
        split at h
        · rename_i c0 c1 rest
          split at h
          · simp at h
          · rename_i r0 st1 heq0
            split at h
            · simp at h
            · rename_i o0 ho0
              injection h with h
              rw [Prod.mk.injEq] at h
              obtain ⟨h1, h2⟩ := h
              subst h1
              subst h2
              exact produced_congr (ih c0 m st r0 st1 heq0)
                (by rw [asAST_ok ho0]; simp [tagsRes, tagsIn])
        · simp at h
      | kSlice1 =>
        simp only [toastStep, hk] at h
        split at h
        · rename_i c0 rest
          split at h
          · simp at h
          · rename_i r0 st1 heq0
            split at h
            · simp at h
            · rename_i a0 ha0
              injection h with h
              rw [Prod.mk.injEq] at h
              obtain ⟨h1, h2⟩ := h
              subst h1
              subst h2
              exact produced_congr (ih c0 m st r0 st1 heq0)
                (by rw [asAST_ok ha0]; simp [tagsRes, tagsIn, optTags])
        · simp at h
      | kSlice2 =>
        simp only [toastStep, hk] at h
        split at h
        · rename_i c0 rest
          split at h
          · simp at h
          · rename_i r0 st1 heq0
            split at h
            · simp at h
            · rename_i a0 ha0
              injection h with h
              rw [Prod.mk.injEq] at h
              obtain ⟨h1, h2⟩ := h
              subst h1
              subst h2
              exact produced_congr (ih c0 m st r0 st1 heq0)
                (by rw [asAST_ok ha0]; simp [tagsRes, tagsIn, optTags])
        · simp at h
      | kSlice12 =>
        simp only [toastStep, hk] at h
        split at h
        · rename_i c0 c1 rest
          split at h
          · simp at h
          · rename_i r0 st1 heq0
            split at h
            · simp at h
            · rename_i a0 ha0
              split at h
              · simp at h
              · rename_i r1 st2 heq1
                split at h
                · simp at h
                · rename_i b0 hb0
                  injection h with h
                  rw [Prod.mk.injEq] at h
                  obtain ⟨h1, h2⟩ := h
                  subst h1
                  subst h2
                  have p0 : Produced st st1 (tagsIn a0 : Multiset Nat) :=
                    produced_congr (ih c0 m st r0 st1 heq0)
                      (by rw [asAST_ok ha0]; simp [tagsRes])
                  have p1 : Produced st1 st2 (tagsIn b0 : Multiset Nat) :=
                    produced_congr (ih c1 m st1 r1 st2 heq1)
                      (by rw [asAST_ok hb0]; simp [tagsRes])
                  refine produced_congr (produced_comp p0 p1) ?_
                  rw [show tagsRes (.ast (.Slice (some a0) (some b0) (firstLine [lineOf a0, lineOf b0]))) =
                        tagsIn a0 ++ tagsIn b0 from by simp [tagsRes, tagsIn, optTags]]
                  simp
        · simp at h
      | kSymbol =>
        simp only [toastStep, hk] at h
        split at h
        · rename_i c rest
          injection h with h
          rw [Prod.mk.injEq] at h
          obtain ⟨h1, h2⟩ := h
          subst h1
          subst h2
          exact produced_congr (produced_refl st) (by simp [tagsRes, tagsIn])
        · simp at h
      | kInt =>
        simp only [toastStep, hk] at h
        split at h
        · rename_i c rest
          split at h
          · rename_i n hn
            injection h with h
            rw [Prod.mk.injEq] at h
            obtain ⟨h1, h2⟩ := h
            subst h1
            subst h2
            exact produced_congr (produced_refl st) (by simp [tagsRes, tagsIn])
          · simp at h
        · simp at h
      | kFloat =>
        simp only [toastStep, hk] at h
        split at h
        · rename_i c rest
          split at h
          · rename_i q hq
            injection h with h
            rw [Prod.mk.injEq] at h
            obtain ⟨h1, h2⟩ := h
            subst h1
            subst h2
            exact produced_congr (produced_refl st) (by simp [tagsRes, tagsIn])
          · simp at h
        · simp at h
      | kOp op =>
        simp only [toastStep, hk] at h
        split at h
        · simp at h
        · rename_i rs st1 heq
          split at h
          · simp at h
          · rename_i xs hall
            injection h with h
            rw [Prod.mk.injEq] at h
            obtain ⟨h1, h2⟩ := h
            subst h1
            subst h2
            refine produced_congr (toastEach_fresh ih m _ st rs st1 heq) ?_
            rw [allASTs_tags hall]
            rw [show tagsRes (.ast (.Call (.Symbol op Option.none) xs (firstLine (xs.map lineOf)))) =
                  tagsIn (.Symbol op Option.none) ++ tagsList xs from by simp [tagsRes, tagsIn]]
            simp [tagsIn]
      | kOther d => simp [toastStep, hk] at h

/-- C7: AST construction from the fresh builder state mints one identity
tag per Pattern construction site — the tags of every Pattern node in
the built AST and in the registered candidate expressions are pairwise
distinct (minted once per source occurrence, not per evaluation);
evaluating a Pattern yields a record carrying identity (tag, idx) where
idx is patIdx of the pre-state — the Matching combination index when a
Matching is active and none otherwise; and records bearing distinct
tags are never equal, under == or propositionally. -/
theorem rejig_C7_pattern_identity :
    (∀ (fuel : Nat) (pt : PTree) (m : Option Nat) (r : TRes) (st' : BState),
        toast fuel pt m emptyB = .ok (r, st') →
        ((tagsRes r : Multiset Nat) + (candTags st' : Multiset Nat)).Nodup) ∧
    (∀ (mt : List (List AST)) (fuel : Nat) (asgns : List AST) (m : Option Nat) (tag : Nat)
        (lp : Option Nat) (sc : Nat) (st : St) (v : Value) (st' : St),
        run mt (fuel + 1) (.Pattern asgns m tag lp) sc st = (.ok v, st') →
        ∃ idx fields, patIdx st m = .ok idx ∧ v = .record tag idx fields) ∧
    (∀ (st : St), patIdx st Option.none = .ok Option.none) ∧
    (∀ (st : St) (mid i : Nat) (row : List Value), st.matchState mid = some (i, row) →
        patIdx st (some mid) = .ok (some i)) ∧
    (∀ (t1 t2 : Nat) (i1 i2 : Option Nat) (f1 f2 : List (String × Value)),
        t1 ≠ t2 →
        valueEqB (.record t1 i1 f1) (.record t2 i2 f2) = false ∧
        (Value.record t1 i1 f1) ≠ (Value.record t2 i2 f2)) := by
  refine ⟨?_, ?_, ?_, ?_, ?_⟩
  · intro fuel pt m r st' h
    obtain ⟨cs, he, hm⟩ := toast_fresh fuel pt m emptyB r st' h
    have hcs : (candTags st' : Multiset Nat) = cs := by
      rw [he]
      show (candTags emptyB : Multiset Nat) + cs = cs
      rw [show (candTags emptyB : Multiset Nat) = 0 from rfl]
      simp
    rw [hcs]
    exact hm.2.1
  · intro mt fuel asgns m tag lp sc st v st' hrun
    rw [run_succ] at hrun
    replace hrun : (match patIdx st m with
                    | Except.error er => ((Except.error er : Except Error Value), st)
                    | Except.ok idx =>
                      match newFrame st (some sc) [] with
                      | (fid, st1) =>
                        match runStmts (run mt fuel) fid asgns st1 with
                        | (Except.error er, st2) => (Except.error er, st2)
                        | (Except.ok _, st2) =>
                          match st2.findFrame fid with
                          | Option.none => (Except.error modelErr, st2)
                          | some f => (Except.ok (Value.record tag idx f.symbols), st2)) = (.ok v, st') := hrun
    cases hpi : patIdx st m with
    | error er =>
      rw [hpi] at hrun
      replace hrun : ((Except.error er : Except Error Value), st) = (.ok v, st') := hrun
      injection hrun with ha hb2
      exact Except.noConfusion ha
    | ok idx =>
      rw [hpi] at hrun
      cases hnf : newFrame st (some sc) [] with
      | mk fid st1 =>
        rw [hnf] at hrun
        replace hrun : (match runStmts (run mt fuel) fid asgns st1 with
                        | (Except.error er, st2) => ((Except.error er : Except Error Value), st2)
                        | (Except.ok _, st2) =>
                          match st2.findFrame fid with
                          | Option.none => (Except.error modelErr, st2)
                          | some f => (Except.ok (Value.record tag idx f.symbols), st2)) = (.ok v, st') := hrun
        cases hrs : runStmts (run mt fuel) fid asgns st1 with
        | mk r st2 =>
          rw [hrs] at hrun
          cases r with
          | error er =>
            replace hrun : ((Except.error er : Except Error Value), st2) = (.ok v, st') := hrun
            injection hrun with ha hb2
            exact Except.noConfusion ha
          | ok u =>
            replace hrun : (match st2.findFrame fid with
                            | Option.none => ((Except.error modelErr : Except Error Value), st2)
                            | some f => (Except.ok (Value.record tag idx f.symbols), st2)) = (.ok v, st') := hrun
            cases hff : st2.findFrame fid with
            | none =>
              rw [hff] at hrun
              replace hrun : ((Except.error modelErr : Except Error Value), st2) = (.ok v, st') := hrun
              injection hrun with ha hb2
              exact Except.noConfusion ha
            | some f =>
              rw [hff] at hrun
              replace hrun : ((Except.ok (Value.record tag idx f.symbols) : Except Error Value), st2) = (.ok v, st') := hrun
              injection hrun with ha hb2
              injection ha with ha
              exact ⟨idx, f.symbols, rfl, ha.symm⟩
  · intro st
    rfl
  · intro st mid i row hms
    simp [patIdx, hms]
  · intro t1 t2 i1 i2 f1 f2 hne
    constructor
    · rw [show valueEqB (.record t1 i1 f1) (.record t2 i2 f2) =
            (t1 == t2 && i1 == i2 && fieldsEqB f1 f2) from by simp [valueEqB, asRatLike]]
      have hb : (t1 == t2) = false := by
        simp [hne]
      rw [hb]
      rfl
    · intro h
      injection h with h1 h2 h3
      exact hne h1

/-- Witness for C7: the two textually identical pattern blocks in one
module get the distinct tags 0 and 1 (pairwise-distinct multiset);
running a concrete Pattern with no active Matching produces a record
with identity (9, none); patIdx reports index 5 for an active Matching
at combination 5; records tagged 0 and 1 are unequal. -/
theorem rejig_C7_witness :
    ((tagsRes (.ast (.Module
        [.Pattern [.Assignment "a" "=" (.Symbol "x" (some 1)) (some 1)] Option.none 0 (some 1),
         .Pattern [.Assignment "a" "=" (.Symbol "x" (some 2)) (some 2)] Option.none 1 (some 2)]
        (some 1))) : Multiset Nat) + (candTags ⟨[], 2⟩ : Multiset Nat)).Nodup ∧
    (∃ idx fields, patIdx (initSt []) Option.none = .ok idx ∧
      (Value.record 9 Option.none [("a", Value.int 1)] : Value) = .record 9 idx fields) ∧
    patIdx ⟨[(1, ⟨some 0, []⟩), (0, builtinsFrame)], 2, [(0, (5, [Value.int 3]))]⟩ (some 0) =
      .ok (some 5) ∧
    valueEqB (.record 0 Option.none []) (.record 1 Option.none []) = false ∧
    (Value.record 0 Option.none [] : Value) ≠ .record 1 Option.none [] := by
  refine ⟨?_, ?_, ?_, ?_, ?_⟩
  · exact rejig_C7_pattern_identity.1 9
      (.node "start" [
        .node "pattern" [.node "assignment" [.token "a" (some 1), .node "symbol" [.token "x" (some 1)]]],
        .node "pattern" [.node "assignment" [.token "a" (some 2), .node "symbol" [.token "x" (some 2)]]]])
      Option.none _ _ (by rfl)
  · exact rejig_C7_pattern_identity.2.1 [] 2
      [.Assignment "a" "=" (.Literal (.int 1) Option.none) Option.none]
      Option.none 9 Option.none 1 (initSt []) (.record 9 Option.none [("a", .int 1)])
      ⟨(2, ⟨some 1, [("a", .int 1)]⟩) :: (initSt []).store, 3, []⟩ rfl
  · exact rejig_C7_pattern_identity.2.2.2.1
      ⟨[(1, ⟨some 0, []⟩), (0, builtinsFrame)], 2, [(0, (5, [Value.int 3]))]⟩ 0 5 [Value.int 3] rfl
  · exact (rejig_C7_pattern_identity.2.2.2.2 0 1 Option.none Option.none [] [] (by decide)).1
  · exact (rejig_C7_pattern_identity.2.2.2.2 0 1 Option.none Option.none [] [] (by decide)).2

end Rejig
